import Mathlib

/-
  Verification development for the assembly core of the mdadm RAID
  management tool (Assemble.c).  Pure fragments of the C function
  Assemble are embedded as Lean functions; external effects (device
  opens, superblock loads and stores, kernel ioctls) are summarized by
  explicit outcome parameters; machine integers are modelled as Nat.
-/

namespace Mdadm

/-- Modelled from the spec: the per-disk state bit indices of the MD
v0.90 on-disk format come from md_p.h, which is not under src; the code
only tests and sets these named bits. -/
def MD_DISK_FAULTY : Nat := 0

/-- Modelled from the spec: bit index of the ACTIVE per-disk state flag
(md_p.h, not under src). -/
def MD_DISK_ACTIVE : Nat := 1

/-- Modelled from the spec: bit index of the SYNC per-disk state flag
(md_p.h, not under src). -/
def MD_DISK_SYNC : Nat := 2

/-- Modelled from the spec: bit index of the REMOVED per-disk state flag
(md_p.h, not under src). -/
def MD_DISK_REMOVED : Nat := 3

/-- Modelled from the spec: bit index of the CLEAN array state flag
(md_p.h, not under src). -/
def MD_SB_CLEAN : Nat := 0

/-- Modelled from the spec: MD_SB_DISKS comes from md_p.h, which is not
under src; the spec fixes the slot-table size of the format at 28. -/
def MD_SB_DISKS : Nat := 28

/-- One entry of the per-slot disks table of a superblock. -/
structure DiskInfo where
  number : Nat
  major : Nat
  minor : Nat
  state : Nat
deriving Repr, DecidableEq, Inhabited

/-- The fields of the on-disk superblock (mdp_super_t) that Assemble
reads or writes. -/
structure Super where
  level : Int
  raid_disks : Nat
  layout : Nat
  md_minor : Nat
  state : Nat
  utime : Nat
  this_major : Nat
  this_minor : Nat
  this_raid_disk : Nat
  this_state : Nat
  events_hi : Nat
  events_lo : Nat
  disks : List DiskInfo
  sb_csum : Nat
deriving Repr, DecidableEq, Inhabited

/-- The in-memory record Assemble keeps per committed device (the
devices array, Assemble.c lines 99 to 108). -/
structure Device where
  major : Nat
  minor : Nat
  oldmajor : Nat
  oldminor : Nat
  events : Nat
  utime : Nat
  uptodate : Bool
  state : Nat
  raid_disk : Nat
deriving Repr, DecidableEq, Inhabited

/-- Modelled from the spec: enough lives in util.c, which is not under
src.  Section 4.5 gives the per-level rule: levels 0 and -1 need every
slot, level 1 and multipath need at least one, levels 4 and 5 tolerate
one missing slot, level 6 two, and level 10 needs one available slot in
every mirror group of the layout; unknown levels never have enough. -/
def enough (level : Int) (raid_disks : Nat) (layout : Nat)
    (avail : Nat → Bool) (okcnt : Nat) : Bool :=
  if level = -4 then decide (1 ≤ okcnt)
  else if level = -1 ∨ level = 0 then decide (okcnt = raid_disks)
  else if level = 1 then decide (1 ≤ okcnt)
  else if level = 4 ∨ level = 5 then decide (raid_disks - 1 ≤ okcnt)
  else if level = 6 then decide (raid_disks - 2 ≤ okcnt)
  else if level = 10 then
    let copies := layout % 256
    (List.range ((raid_disks + copies - 1) / copies)).all fun g =>
      (List.range copies).any fun k =>
        decide (g * copies + k < raid_disks) && avail (g * copies + k)
  else false

/-- Slot key of a committed device (Assemble.c lines 359 to 364): for
multipath (level -4) the arrival index devcnt, otherwise the raid_disk
claimed by its superblock, where values of at least 10000 mean that the
device claims no slot. -/
def slotKey (level : Int) (devcnt : Nat) (raid_disk : Nat) : Option Nat :=
  if level = -4 then some devcnt
  else if raid_disk < 10000 then some raid_disk
  else none

/-- One placement into the SlotMap best (Assemble.c lines 378 to 380):
cell i is taken by the new arrival devcnt when the cell is empty or the
incumbent has a strictly smaller event counter.  The growable int array
with cells holding -1 is modelled as a total map into Option Nat. -/
def bestUpd (devs : List Device) (best : Nat → Option Nat) (i : Nat)
    (devcnt : Nat) (events : Nat) : Nat → Option Nat :=
  fun s =>
    if s = i then
      match best i with
      | none => some devcnt
      | some b => if (devs.getD b default).events < events then some devcnt else some b
    else best s

/-- The SlotMap after the first n committed devices have been placed
(the per-device tail of the probe loop, Assemble.c lines 354 to 383). -/
def buildBestAux (level : Int) (devs : List Device) : Nat → (Nat → Option Nat)
  | 0 => fun _ => none
  | n + 1 =>
    let best := buildBestAux level devs n
    let d := devs.getD n default
    match slotKey level n d.raid_disk with
    | none => best
    | some i => bestUpd devs best i n d.events

/-- The SlotMap best after every committed device has been placed. -/
def buildBest (level : Int) (devs : List Device) : Nat → Option Nat :=
  buildBestAux level devs devs.length

/-- Device j, an arrival index into the committed list, claims slot s. -/
def claimsSlot (level : Int) (devs : List Device) (j s : Nat) : Prop :=
  j < devs.length ∧ slotKey level j (devs.getD j default).raid_disk = some s

instance (level : Int) (devs : List Device) (j s : Nat) :
    Decidable (claimsSlot level devs j s) := by
  unfold claimsSlot
  infer_instance

/-- State of the initial availability scan (Assemble.c lines 393 to
419): the up-to-date marks written into the devices array, the
availability vector and the two counters.  The devices array itself is
a fixed input because the scan reads only fields it never writes. -/
structure ScanState where
  uptodate : Nat → Bool
  avail : Nat → Bool
  okcnt : Nat
  sparecnt : Nat

/-- The body of the availability scan for one slot i (Assemble.c lines
397 to 419): skip empty cells; for non-multipath levels a candidate
without the SYNC bit is a spare when not FAULTY; otherwise a candidate
whose events plus the margin reach the most recent counter is marked up
to date, and counted into okcnt with its avail bit when i is a data
slot, into sparecnt when not. -/
def scanSlot (level : Int) (raid_disks : Nat) (force : Bool) (mrEvents : Nat)
    (devs : List Device) (best : Nat → Option Nat)
    (st : ScanState) (i : Nat) : ScanState :=
  match best i with
  | none => st
  | some j =>
    let d := devs.getD j default
    if decide (level ≠ -4) && ! d.state.testBit MD_DISK_SYNC then
      if ! d.state.testBit MD_DISK_FAULTY then
        { st with sparecnt := st.sparecnt + 1 }
      else st
    else if decide (mrEvents ≤ d.events + (if force then 0 else 1)) then
      let st2 := { st with uptodate := fun k => if k = j then true else st.uptodate k }
      if i < raid_disks then
        { st2 with okcnt := st2.okcnt + 1,
                   avail := fun s => if s = i then true else st2.avail s }
      else { st2 with sparecnt := st2.sparecnt + 1 }
    else st

/-- The availability scan folded over the slot indices. -/
def scanGo (level : Int) (raid_disks : Nat) (force : Bool) (mrEvents : Nat)
    (devs : List Device) (best : Nat → Option Nat) :
    ScanState → List Nat → ScanState
  | st, [] => st
  | st, i :: is => scanGo level raid_disks force mrEvents devs best
      (scanSlot level raid_disks force mrEvents devs best st i) is

/-- The full availability scan over slots 0 to bestcnt - 1, from the
all-clear initial state (avail is zeroed at line 394, okcnt and
sparecnt at lines 395 to 396, uptodate at line 352). -/
def scanOut (level : Int) (raid_disks : Nat) (force : Bool) (mrEvents : Nat)
    (devs : List Device) (best : Nat → Option Nat) (bestcnt : Nat) : ScanState :=
  scanGo level raid_disks force mrEvents devs best
    { uptodate := fun _ => false, avail := fun _ => false, okcnt := 0, sparecnt := 0 }
    (List.range bestcnt)

/-- The condition under which the scan marks the candidate of a slot up
to date (the guards at lines 404 to 411): SYNC unless multipath, and
events within the margin of the most recent counter. -/
def upCondB (level : Int) (force : Bool) (mrEvents : Nat) (d : Device) : Bool :=
  (decide (level = -4) || d.state.testBit MD_DISK_SYNC) &&
    decide (mrEvents ≤ d.events + (if force then 0 else 1))

/-- The condition under which the scan sets the avail bit of slot i. -/
def availCondB (level : Int) (raid_disks : Nat) (force : Bool) (mrEvents : Nat)
    (devs : List Device) (best : Nat → Option Nat) (i : Nat) : Bool :=
  match best i with
  | none => false
  | some j => upCondB level force mrEvents (devs.getD j default) && decide (i < raid_disks)

/-- The condition under which the scan counts slot i into sparecnt:
either a non-multipath candidate that is neither SYNC nor FAULTY, or an
up-to-date candidate sitting beyond the data slots. -/
def spareCondB (level : Int) (raid_disks : Nat) (force : Bool) (mrEvents : Nat)
    (devs : List Device) (best : Nat → Option Nat) (i : Nat) : Bool :=
  match best i with
  | none => false
  | some j =>
    let d := devs.getD j default
    (decide (level ≠ -4) && ! d.state.testBit MD_DISK_SYNC
        && ! d.state.testBit MD_DISK_FAULTY)
      || (upCondB level force mrEvents d && ! decide (i < raid_disks))

/-- The condition under which the scan of slot i marks device j up to
date. -/
def upMarkB (level : Int) (force : Bool) (mrEvents : Nat)
    (devs : List Device) (best : Nat → Option Nat) (j i : Nat) : Bool :=
  match best i with
  | none => false
  | some j2 => decide (j2 = j) && upCondB level force mrEvents (devs.getD j2 default)

/-- Mutable state of the force loop (Assemble.c lines 420 to 477): the
devices array, the availability vector and okcnt.  The availability
vector is modelled as a total map so that the write at line 475, whose
index can reach past raid_disks, stays observable. -/
structure FLState where
  devs : List Device
  avail : Nat → Bool
  okcnt : Nat

/-- Outcome of the reopen, superblock reload and rewrite that the force
loop performs on the chosen drive (Assemble.c lines 444 to 471). -/
inductive ForceIO where
  | ok : ForceIO
  | openFail : ForceIO
  | loadFail : ForceIO
  | storeFail : ForceIO
deriving DecidableEq, Repr

/-- The comparison of the force-loop selection (Assemble.c line 434 to
435): an empty choice, chosen_drive below 0, is always beaten, and a
standing choice only by a strictly larger event counter. -/
def chooseBetter (devs : List Device) (chosen : Option Nat) (j : Nat) : Bool :=
  match chosen with
  | none => true
  | some c => decide ((devs.getD c default).events < (devs.getD j default).events)

/-- The selection scan of the force loop (Assemble.c lines 428 to 437)
folded over a list of slot indices: keep the candidate that is not up
to date, has a positive event counter and strictly beats the event
counter of the current choice. -/
def chooseGo (devs : List Device) (best : Nat → Option Nat) :
    Option Nat → List Nat → Option Nat
  | chosen, [] => chosen
  | chosen, i :: is =>
    let chosen2 :=
      match best i with
      | none => chosen
      | some j =>
        let d := devs.getD j default
        if ! d.uptodate && decide (0 < d.events) && chooseBetter devs chosen j
        then some j
        else chosen
    chooseGo devs best chosen2 is

/-- The chosen drive of one force-loop iteration, scanning the slots
below both raid_disks and bestcnt (the loop bound at line 429). -/
def chooseDrive (devs : List Device) (best : Nat → Option Nat)
    (raid_disks bestcnt : Nat) : Option Nat :=
  chooseGo devs best none (List.range (min raid_disks bestcnt))

/-- One iteration body of the force loop once the while condition held
(Assemble.c lines 427 to 476).  none models the break at line 439.  The
env argument summarizes the reopen, superblock reload and rewrite of
the chosen drive: on any failure its event counter is zeroed and the
loop reselects (lines 448, 455, 469); on success its in-memory events
are raised to the most recent counter, it is marked up to date, avail
is set at the chosen index, which is a device index rather than a slot
index, and okcnt grows (lines 473 to 476).  The event fields, the
forced CLEAN state for levels 4 and 5 and the checksum are written into
the on-disk superblock whose store the env outcome summarizes. -/
def forceStep (env : Nat → ForceIO) (mrEvents : Nat)
    (best : Nat → Option Nat) (raid_disks bestcnt : Nat)
    (st : FLState) : Option FLState :=
  match chooseDrive st.devs best raid_disks bestcnt with
  | none => none
  | some cd =>
    match env cd with
    | ForceIO.ok =>
      let d := st.devs.getD cd default
      some { devs := st.devs.set cd { d with events := mrEvents, uptodate := true },
             avail := fun s => if s = cd then true else st.avail s,
             okcnt := st.okcnt + 1 }
    | _ =>
      let d := st.devs.getD cd default
      some { st with devs := st.devs.set cd { d with events := 0 } }

/-- The force loop (Assemble.c lines 420 to 477) with explicit fuel.
Returns the final state, the number of non-breaking iterations, and
whether the loop exited on its own (by the while condition or the
break) rather than by running out of fuel. -/
def forceLoop (env : Nat → ForceIO) (mrEvents : Nat) (level : Int)
    (raid_disks : Nat) (layout : Nat) (best : Nat → Option Nat)
    (bestcnt : Nat) (force : Bool) : Nat → FLState → FLState × Nat × Bool
  | 0, st => (st, 0, false)
  | fuel + 1, st =>
    if force && ! enough level raid_disks layout st.avail st.okcnt then
      match forceStep env mrEvents best raid_disks bestcnt st with
      | none => (st, 0, true)
      | some st2 =>
        let r := forceLoop env mrEvents level raid_disks layout best bestcnt force fuel st2
        (r.1, r.2.1 + 1, r.2.2)
    else (st, 0, true)

/-- A slot index below both raid_disks and bestcnt whose candidate is
still eligible for the force-loop selection. -/
def eligSlot (devs : List Device) (best : Nat → Option Nat) (i : Nat) : Bool :=
  match best i with
  | none => false
  | some j =>
    let d := devs.getD j default
    ! d.uptodate && decide (0 < d.events)

/-- Number of slots whose candidate the force loop can still select. -/
def forceMeasure (devs : List Device) (best : Nat → Option Nat)
    (raid_disks bestcnt : Nat) : Nat :=
  (List.range (min raid_disks bestcnt)).countP (eligSlot devs best)

/-- The renumber patch of the reconciliation pass (Assemble.c lines 530
to 535): when the recorded oldmajor or oldminor of the candidate
disagrees with the per-slot numbers of the working superblock, the slot
is patched to the recorded values and change bit 2 is set. -/
def renumberPatch (d : Device) (i : Nat) (acc : Super × Nat) : Super × Nat :=
  let sup := acc.1
  let di := sup.disks.getD i default
  if decide (d.oldmajor ≠ di.major) || decide (d.oldminor ≠ di.minor) then
    let di2 := { di with major := d.oldmajor, minor := d.oldminor }
    ({ sup with disks := sup.disks.set i di2 }, acc.2 ||| 2)
  else acc

/-- The state overwrite of the reconciliation pass (Assemble.c lines
536 to 549): when the up-to-date candidate occupies a slot whose state
differs from the desired one, under force the state is overwritten and
change bit 2 is set; without force only a warning is printed. -/
def statePatch (force : Bool) (d : Device) (i : Nat) (desired_state : Nat)
    (acc : Super × Nat) : Super × Nat :=
  let di2 := acc.1.disks.getD i default
  if d.uptodate && decide (di2.state ≠ desired_state) then
    if force then
      let di3 := { di2 with state := desired_state }
      ({ acc.1 with disks := acc.1.disks.set i di3 }, acc.2 ||| 2)
    else acc
  else acc

/-- One slot of the reconciliation pass (Assemble.c lines 508 to 555)
acting on the working superblock and the change bits.  Bit 1 of change
belongs to the disabled current-numbering branch (the if 0 block, lines
521 to 529) and is never set; bit 2 records both the renumber patch and
the forced state overwrite.  Warnings without effect on state (lines
550 to 554) are omitted. -/
def reconcileSlot (force : Bool) (devs : List Device)
    (best : Nat → Option Nat) (acc : Super × Nat) (i : Nat) : Super × Nat :=
  let desired_state : Nat :=
    if i < acc.1.raid_disks then 2 ^ MD_DISK_ACTIVE ||| 2 ^ MD_DISK_SYNC else 0
  match best i with
  | none => acc
  | some j =>
    let d := devs.getD j default
    if ! d.uptodate then acc
    else statePatch force d i desired_state (renumberPatch d i acc)

/-- The reconciliation pass over all slots, followed by the forced
CLEAN special case for levels 4 and 5 with exactly one missing data
slot (Assemble.c lines 556 to 560); the unsigned comparison okcnt equal
to raid_disks minus one is written additively. -/
def reconcile (force : Bool) (okcnt : Nat) (devs : List Device)
    (best : Nat → Option Nat) (bestcnt : Nat) (sup0 : Super) : Super × Nat :=
  let sc := (List.range bestcnt).foldl (reconcileSlot force devs best) (sup0, 0)
  if force && (decide (sc.1.level = 4) || decide (sc.1.level = 5)) &&
      decide (okcnt + 1 = sc.1.raid_disks) then
    ({ sc.1 with state := 2 ^ MD_SB_CLEAN }, sc.2 ||| 2)
  else sc

/-- The write-back condition of the reconciler (Assemble.c line 562):
force with change bit 2, or the legacy path with change bit 1. -/
def storeCond (force old_linux : Bool) (change : Nat) : Bool :=
  (force && decide (change &&& 2 ≠ 0)) || (old_linux && decide (change &&& 1 ≠ 0))

/-- The write condition as the specification words it in section 4.6:
force with a recorded state change, or the legacy path with a recorded
renumber change, the renumber patch being said to set only the RENUMBER
bit and the state overwrite only the STATE bit. -/
def specStoreCond (force old_linux renumberChanged stateChanged : Bool) : Bool :=
  (force && stateChanged) || (old_linux && renumberChanged)

/-- The reconciler write-back block (Assemble.c lines 562 to 580): when
the condition holds, the checksum is recomputed and the superblock is
stored on the chosen drive; a failure to open or to store aborts with
exit status 1.  Returns the exit status when the block aborts, and the
superblock as written when the store succeeded. -/
def reconcileWrite (csum : Super → Nat) (openOK storeOK : Bool)
    (force old_linux : Bool) (sup : Super) (change : Nat) :
    Option Nat × Option Super :=
  if storeCond force old_linux change then
    let sup2 := { sup with sb_csum := csum sup }
    if ! openOK then (some 1, none)
    else if ! storeOK then (some 1, none)
    else (none, some sup2)
  else (none, none)

/-- A kernel control call of the modern driver plan. -/
inductive KCall where
  | setArrayInfo : KCall
  | addNewDisk : Nat → Nat → KCall
  | runArray : KCall
deriving DecidableEq, Repr

/-- Accumulator of the add loop: the kernel call trace so far and the
two counters the per-disk failure handling decrements. -/
structure AddAcc where
  trace : List KCall
  okcnt : Nat
  sparecnt : Nat
deriving Repr

/-- One iteration of the add loop (Assemble.c lines 601 to 630): for i
below bestcnt the slot entry is taken unless it equals the chosen drive
(the int comparison j == chosen_drive, with none standing for -1), and
at i = bestcnt the chosen drive itself is taken.  A present device is
always submitted to ADD_NEW_DISK; when the call fails, okcnt is
decremented for data slots and for the final chosen add, sparecnt
otherwise (lines 620 to 623). -/
def addSlot (addOK : Nat → Bool) (devs : List Device)
    (best : Nat → Option Nat) (chosen : Option Nat)
    (raid_disks bestcnt : Nat) (acc : AddAcc) (i : Nat) : AddAcc :=
  let j : Option Nat :=
    if i < bestcnt then
      if best i = chosen then none else best i
    else chosen
  match j with
  | none => acc
  | some j =>
    let d := devs.getD j default
    let acc2 := { acc with trace := acc.trace ++ [KCall.addNewDisk d.major d.minor] }
    if addOK i then acc2
    else if i < raid_disks ∨ i = bestcnt then { acc2 with okcnt := acc2.okcnt - 1 }
    else { acc2 with sparecnt := acc2.sparecnt - 1 }

/-- Outcomes of the kernel calls of the modern plan: SET_ARRAY_INFO,
the per-iteration ADD_NEW_DISK calls, and RUN_ARRAY. -/
structure ModernEnv where
  setOK : Bool
  addOK : Nat → Bool
  runOK : Bool

/-- The run policy of the modern plan (Assemble.c lines 632 to 636). -/
def runCond (level : Int) (raid_disks layout : Nat) (avail : Nat → Bool)
    (okcnt req_cnt : Nat) (runstop : Int) (startPartialOk : Bool) : Bool :=
  decide (runstop = 1) ||
    (decide (runstop = 0) &&
      (enough level raid_disks layout avail okcnt &&
        (decide (req_cnt ≤ okcnt) || startPartialOk)))

/-- The modern driver plan (Assemble.c lines 594 to 668): SET_ARRAY_INFO
first, aborting with exit 1 when it fails; then the add loop over i from
0 to bestcnt with the chosen drive last; then the run policy, where a
RUN_ARRAY failure exits 1, runstop of -1 reports an assembled but not
started array with exit 0, and every remaining case exits 1.  Returns
the kernel call trace and the exit status. -/
def modernPath (env : ModernEnv) (devs : List Device)
    (best : Nat → Option Nat) (chosen : Option Nat) (level : Int)
    (raid_disks layout bestcnt : Nat) (avail : Nat → Bool)
    (okcnt sparecnt req_cnt : Nat) (runstop : Int)
    (startPartialOk : Bool) : List KCall × Nat :=
  if ! env.setOK then ([KCall.setArrayInfo], 1)
  else
    let acc := (List.range (bestcnt + 1)).foldl
      (addSlot env.addOK devs best chosen raid_disks bestcnt)
      { trace := [KCall.setArrayInfo], okcnt := okcnt, sparecnt := sparecnt }
    if runCond level raid_disks layout avail acc.okcnt req_cnt runstop startPartialOk then
      if env.runOK then (acc.trace ++ [KCall.runArray], 0)
      else (acc.trace ++ [KCall.runArray], 1)
    else if runstop = -1 then (acc.trace, 0)
    else (acc.trace, 1)

/-- req_cnt (Assemble.c lines 585 to 590): the number of slots of the
reference superblock whose state has SYNC and ACTIVE set and FAULTY
clear, counted over its MD_SB_DISKS table entries. -/
def reqCntOf (sup : Super) : Nat :=
  (List.range MD_SB_DISKS).countP fun i =>
    let st := (sup.disks.getD i default).state
    st.testBit MD_DISK_SYNC && st.testBit MD_DISK_ACTIVE && ! st.testBit MD_DISK_FAULTY

/-- The flag the run policy consults when okcnt falls short of req_cnt
(Assemble.c line 119): force was given or no explicit device list was
supplied. -/
def startPartialOkOf (force devlistGiven : Bool) : Bool :=
  force || ! devlistGiven

/-- The single kernel call of the legacy plan. -/
inductive LegacyCall where
  | startArray : Nat → LegacyCall
deriving DecidableEq, Repr

/-- The packed device number handed to START_ARRAY (makedev of the
chosen device numbers). -/
def makedev (ma mi : Nat) : Nat := ma * 256 + mi

/-- The legacy driver plan (Assemble.c lines 669 to 683): one
START_ARRAY ioctl carrying the packed device number of the chosen
drive; when it fails the diagnostic at lines 678 to 679 is printed and
control falls through to the return 0 at line 683 either way.  Returns
the call trace, whether the failure diagnostic was printed, and the
exit status. -/
def legacyPath (startOK : Bool) (devs : List Device) (chosen : Nat) :
    List LegacyCall × Bool × Nat :=
  let d := devs.getD chosen default
  if startOK then ([LegacyCall.startArray (makedev d.major d.minor)], false, 0)
  else ([LegacyCall.startArray (makedev d.major d.minor)], true, 0)

/-- The identity record the probe filters against (section 6 of the
spec; the UnSet sentinels of the C struct are modelled as none). -/
structure Ident where
  uuid_set : Bool
  uuid : Nat
  super_minor : Option Nat
  level : Option Int
  raid_disks : Option Nat
  hasPattern : Bool
deriving Repr

/-- Per-path inputs of one probe round (Assemble.c lines 180 to 273):
the pattern match result, the outcomes of open, fstat, the block-device
check and the superblock load, the loaded superblock, its uuid, the
result of compare_super against the reference, and the current device
numbers from fstat. -/
structure ProbeInput where
  patternMatch : Bool
  openOK : Bool
  statOK : Bool
  isBlock : Bool
  loadOK : Bool
  sup : Super
  this_uuid : Nat
  compareOK : Bool
  cur_major : Nat
  cur_minor : Nat
deriving Repr

/-- Outcome of one probe round for one device. -/
inductive ProbeOutcome where
  | skipped : ProbeOutcome
  | fatal : ProbeOutcome
  | committed : ProbeOutcome
deriving DecidableEq, Repr

/-- The per-device decision of the probe and identity filter
(Assemble.c lines 180 to 273).  An open, stat, type or load failure
only clears havesuper (lines 197 to 220); each set identity field skips
the device when havesuper is clear or the field mismatches (lines 222
to 249); past the filter, a missing superblock or a failed comparison
against the reference is fatal (lines 256 to 265); at the MD_SB_DISKS
cap the device is skipped with a warning (lines 269 to 273), before the
update block at line 276 is reached. -/
def probeDevice (ident : Ident) (inp : ProbeInput) (devcnt : Nat) : ProbeOutcome :=
  if ident.hasPattern && ! inp.patternMatch then ProbeOutcome.skipped
  else
    let havesuper := inp.openOK && inp.statOK && inp.isBlock && inp.loadOK
    if ident.uuid_set && (! havesuper || decide (inp.this_uuid ≠ ident.uuid)) then
      ProbeOutcome.skipped
    else if (match ident.super_minor with
             | some m => ! havesuper || decide (m ≠ inp.sup.md_minor)
             | none => false) then ProbeOutcome.skipped
    else if (match ident.level with
             | some lv => ! havesuper || decide (lv ≠ inp.sup.level)
             | none => false) then ProbeOutcome.skipped
    else if (match ident.raid_disks with
             | some rd => ! havesuper || decide (rd ≠ inp.sup.raid_disks)
             | none => false) then ProbeOutcome.skipped
    else if ! havesuper then ProbeOutcome.fatal
    else if ! inp.compareOK then ProbeOutcome.fatal
    else if MD_SB_DISKS ≤ devcnt then ProbeOutcome.skipped
    else ProbeOutcome.committed

/-- The committed record built from a probe round (Assemble.c lines 344
to 353); the event counter combines the two 32-bit halves, high half in
the more significant bits. -/
def mkDevice (inp : ProbeInput) : Device :=
  { major := inp.cur_major, minor := inp.cur_minor,
    oldmajor := inp.sup.this_major, oldminor := inp.sup.this_minor,
    events := inp.sup.events_hi * 2 ^ 32 + inp.sup.events_lo,
    utime := inp.sup.utime, uptodate := false,
    state := inp.sup.this_state, raid_disk := inp.sup.this_raid_disk }

/-- The probe loop over the candidate paths (Assemble.c lines 180 to
383) restricted to the outcome decisions the claims need: skipped
devices are passed over, the first fatal device aborts the whole
assembly with exit 1, and committed devices are recorded in order. -/
def probeLoop (ident : Ident) : Nat → List ProbeInput → Except Nat (List Device)
  | _, [] => Except.ok []
  | devcnt, inp :: rest =>
    match probeDevice ident inp devcnt with
    | ProbeOutcome.skipped => probeLoop ident devcnt rest
    | ProbeOutcome.fatal => Except.error 1
    | ProbeOutcome.committed =>
      match probeLoop ident (devcnt + 1) rest with
      | Except.error e => Except.error e
      | Except.ok ds => Except.ok (mkDevice inp :: ds)

/-- Within the first n arrivals, j claims slot s with the maximum event
counter, earliest among the ties. -/
def bestAt (level : Int) (devs : List Device) (n s j : Nat) : Prop :=
  j < n ∧ slotKey level j (devs.getD j default).raid_disk = some s ∧
  ∀ k, k < n → slotKey level k (devs.getD k default).raid_disk = some s →
    (devs.getD k default).events ≤ (devs.getD j default).events ∧
    ((devs.getD k default).events = (devs.getD j default).events → j ≤ k)

/-- A concrete two-device committed list in which both devices claim
slot 0 and the later arrival carries the larger event counter. -/
def devsW8 : List Device :=
  [{ major := 8, minor := 1, oldmajor := 8, oldminor := 1, events := 3,
     utime := 0, uptodate := false, state := 6, raid_disk := 0 },
   { major := 8, minor := 2, oldmajor := 8, oldminor := 2, events := 7,
     utime := 0, uptodate := false, state := 6, raid_disk := 0 }]

/-- A concrete one-device input for the scan: the device claims slot 0,
is SYNC, and matches the most recent event counter. -/
def devsW9 : List Device :=
  [{ major := 8, minor := 1, oldmajor := 8, oldminor := 1, events := 10,
     utime := 0, uptodate := false, state := 6, raid_disk := 0 }]

/-- The SlotMap of the concrete scan input. -/
def bestW9 : Nat → Option Nat := fun s => if s = 0 then some 0 else none

/-- The device record the force loop leaves at the chosen index after a
successful rewrite. -/
def forceOkDev (st : FLState) (cd mrEvents : Nat) : Device :=
  { st.devs.getD cd default with events := mrEvents, uptodate := true }

/-- The device record the force loop leaves at the chosen index after a
failed rewrite: its event counter is zeroed. -/
def forceFailDev (st : FLState) (cd : Nat) : Device :=
  { st.devs.getD cd default with events := 0 }

/-- The two-device committed list of the slot-swap run: the device at
arrival index 0 claims slot 1 and is already up to date; the device at
arrival index 1 claims slot 0 and is stale. -/
def devsC1 : List Device :=
  [{ major := 8, minor := 1, oldmajor := 8, oldminor := 1, events := 10,
     utime := 0, uptodate := true, state := 6, raid_disk := 1 },
   { major := 8, minor := 2, oldmajor := 8, oldminor := 2, events := 5,
     utime := 0, uptodate := false, state := 6, raid_disk := 0 }]

/-- The two-device committed list of the out-of-range run: only the
device at arrival index 1 occupies a slot (slot 0) and it is stale;
raid_disks is 1, so the availability vector has a single valid index. -/
def devsC1b : List Device :=
  [{ major := 8, minor := 3, oldmajor := 8, oldminor := 3, events := 9,
     utime := 0, uptodate := true, state := 6, raid_disk := 5 },
   { major := 8, minor := 4, oldmajor := 8, oldminor := 4, events := 4,
     utime := 0, uptodate := false, state := 6, raid_disk := 0 }]

/-- The concrete single-device input of the reconciler run: the
committed device is up to date and records oldminor 2, while the chosen
superblock records minor 3 for slot 0, so only the renumber patch
fires; the slot state already equals the desired ACTIVE plus SYNC. -/
def devsC4 : List Device :=
  [{ major := 8, minor := 1, oldmajor := 8, oldminor := 2, events := 10,
     utime := 0, uptodate := true, state := 6, raid_disk := 0 }]

/-- The SlotMap of the reconciler run: slot 0 holds device 0. -/
def bestC4 : Nat → Option Nat := fun s => if s = 0 then some 0 else none

/-- The chosen superblock of the reconciler run. -/
def supC4 : Super :=
  { level := 0, raid_disks := 1, layout := 0, md_minor := 0, state := 0,
    utime := 0, this_major := 8, this_minor := 3, this_raid_disk := 0,
    this_state := 6, events_hi := 0, events_lo := 10,
    disks := [{ number := 0, major := 8, minor := 3, state := 6 }], sb_csum := 0 }

/-
  Theorems.
-/

/-- C2, counterexample: on the legacy path with a failing START_ARRAY
call, Assemble still returns exit status 0, against the claim that the
failure yields a non-zero exit. -/
theorem C2_counterexample :
    (legacyPath false
      [{ major := 8, minor := 1, oldmajor := 8, oldminor := 1, events := 1,
         utime := 0, uptodate := true, state := 6, raid_disk := 0 }] 0).2.2 = 0 := by
  rfl

/-- C2, amended: on the legacy path the single START_ARRAY call carries
the packed device number of the chosen drive; a failure of the call is
only logged, and Assemble returns 0 whether or not the call
succeeded. -/
theorem C2_legacy_start_failure_not_fatal (startOK : Bool) (devs : List Device)
    (chosen : Nat) :
    (legacyPath startOK devs chosen).2.2 = 0 ∧
    ((legacyPath startOK devs chosen).2.1 = true ↔ startOK = false) ∧
    (legacyPath startOK devs chosen).1 =
      [LegacyCall.startArray (makedev (devs.getD chosen default).major
        (devs.getD chosen default).minor)] := by
  cases startOK <;> simp [legacyPath]

lemma bestUpd_self (devs : List Device) (best : Nat → Option Nat)
    (i devcnt events : Nat) :
    bestUpd devs best i devcnt events i =
      match best i with
      | none => some devcnt
      | some b => if (devs.getD b default).events < events then some devcnt
                  else some b := by
  simp [bestUpd]

lemma bestUpd_other (devs : List Device) (best : Nat → Option Nat)
    (i devcnt events s : Nat) (h : s ≠ i) :
    bestUpd devs best i devcnt events s = best s := by
  simp only [bestUpd, if_neg h]

lemma buildBestAux_succ (level : Int) (devs : List Device) (n : Nat) :
    buildBestAux level devs (n + 1) =
      match slotKey level n (devs.getD n default).raid_disk with
      | none => buildBestAux level devs n
      | some i => bestUpd devs (buildBestAux level devs n) i n
          (devs.getD n default).events := by
  rfl

lemma buildBestAux_spec (level : Int) (devs : List Device) :
    ∀ n s,
      (∀ j, buildBestAux level devs n s = some j → bestAt level devs n s j) ∧
      ((∃ k, k < n ∧ slotKey level k (devs.getD k default).raid_disk = some s) →
        (buildBestAux level devs n s).isSome) := by
  intro n
  induction n with
  | zero =>
    intro s
    constructor
    · intro j h
      simp [buildBestAux] at h
    · rintro ⟨k, hk, -⟩
      omega
  | succ n ih =>
    intro s
    by_cases hsk : slotKey level n (devs.getD n default).raid_disk = some s
    · -- arrival n claims exactly slot s
      have hstep : buildBestAux level devs (n + 1) s =
          match buildBestAux level devs n s with
          | none => some n
          | some b => if (devs.getD b default).events < (devs.getD n default).events
                      then some n else some b := by
        rw [buildBestAux_succ, hsk]
        exact bestUpd_self devs _ s n _
      constructor
      · intro j hj
        rcases hb : buildBestAux level devs n s with - | b
        · have hj2 : some n = some j := by
            rw [← hj, hstep, hb]
          simp only [Option.some.injEq] at hj2
          subst hj2
          refine ⟨Nat.lt_succ_self n, hsk, ?_⟩
          intro k hk hks
          rcases Nat.lt_succ_iff_lt_or_eq.mp hk with hk2 | rfl
          · exact absurd ((ih s).2 ⟨k, hk2, hks⟩) (by simp [hb])
          · exact ⟨Nat.le_refl _, fun _ => Nat.le_refl _⟩
        · have hbAt := (ih s).1 b hb
          have hj2 : (if (devs.getD b default).events < (devs.getD n default).events
              then some n else some b) = some j := by
            rw [← hj, hstep, hb]
          by_cases hev : (devs.getD b default).events < (devs.getD n default).events
          · rw [if_pos hev] at hj2
            simp only [Option.some.injEq] at hj2
            subst hj2
            refine ⟨Nat.lt_succ_self n, hsk, ?_⟩
            intro k hk hks
            rcases Nat.lt_succ_iff_lt_or_eq.mp hk with hk2 | rfl
            · have := (hbAt.2.2 k hk2 hks).1
              exact ⟨Nat.le_of_lt (Nat.lt_of_le_of_lt this hev), fun heq => by omega⟩
            · exact ⟨Nat.le_refl _, fun _ => Nat.le_refl _⟩
          · rw [if_neg hev] at hj2
            simp only [Option.some.injEq] at hj2
            subst hj2
            refine ⟨Nat.lt_succ_of_lt hbAt.1, hbAt.2.1, ?_⟩
            intro k hk hks
            rcases Nat.lt_succ_iff_lt_or_eq.mp hk with hk2 | rfl
            · exact hbAt.2.2 k hk2 hks
            · exact ⟨Nat.le_of_not_lt hev, fun _ => Nat.le_of_lt hbAt.1⟩
      · intro _
        rw [hstep]
        rcases hb : buildBestAux level devs n s with - | b
        · rfl
        · show (if (devs.getD b default).events < (devs.getD n default).events
            then some n else some b).isSome = true
          by_cases hev : (devs.getD b default).events < (devs.getD n default).events
          · rw [if_pos hev]
            rfl
          · rw [if_neg hev]
            rfl
    · -- arrival n claims some other slot, or none
      have hstep : buildBestAux level devs (n + 1) s = buildBestAux level devs n s := by
        rcases hk2 : slotKey level n (devs.getD n default).raid_disk with - | i
        · rw [buildBestAux_succ, hk2]
        · have hne : s ≠ i := by
            intro h
            exact hsk (h ▸ hk2)
          rw [buildBestAux_succ, hk2]
          exact bestUpd_other devs _ i n _ s hne
      constructor
      · intro j hj
        rw [hstep] at hj
        have hbAt := (ih s).1 j hj
        refine ⟨Nat.lt_succ_of_lt hbAt.1, hbAt.2.1, ?_⟩
        intro k hk hks
        rcases Nat.lt_succ_iff_lt_or_eq.mp hk with hk2 | rfl
        · exact hbAt.2.2 k hk2 hks
        · exact absurd hks hsk
      · rintro ⟨k, hk, hks⟩
        rw [hstep]
        rcases Nat.lt_succ_iff_lt_or_eq.mp hk with hk2 | rfl
        · exact (ih s).2 ⟨k, hk2, hks⟩
        · exact absurd hks hsk

/-- C8: after all committed devices are probed, every occupied SlotMap
cell holds the claimant with the maximum event counter among those
claiming that slot, earliest among ties; a device whose raid_disk is at
least 10000 claims no slot, at multipath level -4 the slot key is the
arrival index (both inside slotKey, hence claimsSlot), and a cell is
occupied whenever its slot has any claimant. -/
theorem C8_slotmap_argmax (level : Int) (devs : List Device) (s : Nat) :
    (∀ j, buildBest level devs s = some j →
      claimsSlot level devs j s ∧
      ∀ k, claimsSlot level devs k s →
        (devs.getD k default).events ≤ (devs.getD j default).events ∧
        ((devs.getD k default).events = (devs.getD j default).events → j ≤ k)) ∧
    ((∃ k, claimsSlot level devs k s) → (buildBest level devs s).isSome) := by
  have h := buildBestAux_spec level devs devs.length s
  constructor
  · intro j hj
    obtain ⟨h1, h2, h3⟩ := h.1 j hj
    exact ⟨⟨h1, h2⟩, fun k hk => h3 k hk.1 hk.2⟩
  · rintro ⟨k, hk1, hk2⟩
    exact h.2 ⟨k, hk1, hk2⟩

/-- C8, witness: on the concrete two-device array claiming the same
slot, the SlotMap keeps the later device carrying the larger event
counter, and the earlier claimant does not beat it. -/
theorem C8_slotmap_argmax_witness :
    claimsSlot 5 devsW8 1 0 ∧
    (devsW8.getD 0 default).events ≤ (devsW8.getD 1 default).events := by
  have h := (C8_slotmap_argmax 5 devsW8 0).1 1 (by decide)
  exact ⟨h.1, (h.2 0 (by decide)).1⟩

lemma upCondB_false_of (level : Int) (force : Bool) (mrEvents : Nat) (d : Device)
    (h : (decide (level ≠ -4) && ! d.state.testBit MD_DISK_SYNC) = true) :
    upCondB level force mrEvents d = false := by
  cases hl : decide (level = -4) <;> cases hsy : d.state.testBit MD_DISK_SYNC <;>
    simp_all [upCondB, ne_eq, decide_not]

lemma upCondB_of_not (level : Int) (force : Bool) (mrEvents : Nat) (d : Device)
    (h : (decide (level ≠ -4) && ! d.state.testBit MD_DISK_SYNC) = false) :
    upCondB level force mrEvents d =
      decide (mrEvents ≤ d.events + (if force then 0 else 1)) := by
  cases hl : decide (level = -4) <;> cases hsy : d.state.testBit MD_DISK_SYNC <;>
    simp_all [upCondB, ne_eq, decide_not]

lemma scanSlot_avail (level : Int) (raid_disks : Nat) (force : Bool) (mrEvents : Nat)
    (devs : List Device) (best : Nat → Option Nat) (st : ScanState) (i s : Nat) :
    (scanSlot level raid_disks force mrEvents devs best st i).avail s =
      (st.avail s || (decide (s = i) &&
        availCondB level raid_disks force mrEvents devs best i)) := by
  rcases hbi : best i with - | j
  · simp [scanSlot, availCondB, hbi]
  · simp only [scanSlot, hbi, availCondB, upCondB]
    set d := devs.getD j default with hd
    cases hl : decide (level = -4) <;>
      cases hsy : d.state.testBit MD_DISK_SYNC <;>
      cases hfa : d.state.testBit MD_DISK_FAULTY <;>
      cases hm : decide (mrEvents ≤ d.events + (if force then 0 else 1)) <;>
      by_cases hir : i < raid_disks <;>
      by_cases hsi : s = i <;>
      simp_all [ne_eq, decide_not, -Nat.not_lt, -not_lt]

lemma scanSlot_uptodate (level : Int) (raid_disks : Nat) (force : Bool) (mrEvents : Nat)
    (devs : List Device) (best : Nat → Option Nat) (st : ScanState) (i j0 : Nat) :
    (scanSlot level raid_disks force mrEvents devs best st i).uptodate j0 =
      (st.uptodate j0 || upMarkB level force mrEvents devs best j0 i) := by
  rcases hbi : best i with - | j
  · simp [scanSlot, upMarkB, hbi]
  · simp only [scanSlot, hbi, upMarkB, upCondB]
    set d := devs.getD j default with hd
    by_cases hji : j0 = j
    · subst hji
      cases hl : decide (level = -4) <;>
        cases hsy : d.state.testBit MD_DISK_SYNC <;>
        cases hfa : d.state.testBit MD_DISK_FAULTY <;>
        cases hm : decide (mrEvents ≤ d.events + (if force then 0 else 1)) <;>
        by_cases hir : i < raid_disks <;>
        simp_all [ne_eq, decide_not, -Nat.not_lt, -not_lt]
    · have hji2 : ¬ j = j0 := fun h => hji h.symm
      cases hl : decide (level = -4) <;>
        cases hsy : d.state.testBit MD_DISK_SYNC <;>
        cases hfa : d.state.testBit MD_DISK_FAULTY <;>
        cases hm : decide (mrEvents ≤ d.events + (if force then 0 else 1)) <;>
        by_cases hir : i < raid_disks <;>
        simp_all [ne_eq, decide_not, -Nat.not_lt, -not_lt]

lemma scanSlot_okcnt (level : Int) (raid_disks : Nat) (force : Bool) (mrEvents : Nat)
    (devs : List Device) (best : Nat → Option Nat) (st : ScanState) (i : Nat) :
    (scanSlot level raid_disks force mrEvents devs best st i).okcnt =
      st.okcnt + (if availCondB level raid_disks force mrEvents devs best i = true
        then 1 else 0) := by
  rcases hbi : best i with - | j
  · simp [scanSlot, availCondB, hbi]
  · simp only [scanSlot, hbi, availCondB, upCondB]
    set d := devs.getD j default with hd
    cases hl : decide (level = -4) <;>
      cases hsy : d.state.testBit MD_DISK_SYNC <;>
      cases hfa : d.state.testBit MD_DISK_FAULTY <;>
      cases hm : decide (mrEvents ≤ d.events + (if force then 0 else 1)) <;>
      by_cases hir : i < raid_disks <;>
      simp_all [ne_eq, decide_not, -Nat.not_lt, -not_lt]

lemma scanSlot_sparecnt (level : Int) (raid_disks : Nat) (force : Bool) (mrEvents : Nat)
    (devs : List Device) (best : Nat → Option Nat) (st : ScanState) (i : Nat) :
    (scanSlot level raid_disks force mrEvents devs best st i).sparecnt =
      st.sparecnt + (if spareCondB level raid_disks force mrEvents devs best i = true
        then 1 else 0) := by
  rcases hbi : best i with - | j
  · simp [scanSlot, spareCondB, hbi]
  · simp only [scanSlot, hbi, spareCondB, upCondB]
    set d := devs.getD j default with hd
    cases hl : decide (level = -4) <;>
      cases hsy : d.state.testBit MD_DISK_SYNC <;>
      cases hfa : d.state.testBit MD_DISK_FAULTY <;>
      cases hm : decide (mrEvents ≤ d.events + (if force then 0 else 1)) <;>
      by_cases hir : i < raid_disks <;>
      simp_all [ne_eq, decide_not, -Nat.not_lt, -not_lt]

lemma scanGo_avail (level : Int) (raid_disks : Nat) (force : Bool) (mrEvents : Nat)
    (devs : List Device) (best : Nat → Option Nat) :
    ∀ (is : List Nat) (st : ScanState) (s : Nat),
      (scanGo level raid_disks force mrEvents devs best st is).avail s =
        (st.avail s || is.any fun i => decide (s = i) &&
          availCondB level raid_disks force mrEvents devs best i) := by
  intro is
  induction is with
  | nil => intro st s; simp [scanGo]
  | cons i is ih =>
    intro st s
    simp [scanGo, ih, scanSlot_avail, Bool.or_assoc]

lemma scanGo_uptodate (level : Int) (raid_disks : Nat) (force : Bool) (mrEvents : Nat)
    (devs : List Device) (best : Nat → Option Nat) :
    ∀ (is : List Nat) (st : ScanState) (j0 : Nat),
      (scanGo level raid_disks force mrEvents devs best st is).uptodate j0 =
        (st.uptodate j0 || is.any (upMarkB level force mrEvents devs best j0)) := by
  intro is
  induction is with
  | nil => intro st j0; simp [scanGo]
  | cons i is ih =>
    intro st j0
    simp [scanGo, ih, scanSlot_uptodate, Bool.or_assoc]

lemma scanGo_okcnt (level : Int) (raid_disks : Nat) (force : Bool) (mrEvents : Nat)
    (devs : List Device) (best : Nat → Option Nat) :
    ∀ (is : List Nat) (st : ScanState),
      (scanGo level raid_disks force mrEvents devs best st is).okcnt =
        st.okcnt + is.countP (availCondB level raid_disks force mrEvents devs best) := by
  intro is
  induction is with
  | nil => intro st; simp [scanGo]
  | cons i is ih =>
    intro st
    simp only [scanGo, ih, scanSlot_okcnt, List.countP_cons]
    omega

lemma scanGo_sparecnt (level : Int) (raid_disks : Nat) (force : Bool) (mrEvents : Nat)
    (devs : List Device) (best : Nat → Option Nat) :
    ∀ (is : List Nat) (st : ScanState),
      (scanGo level raid_disks force mrEvents devs best st is).sparecnt =
        st.sparecnt + is.countP (spareCondB level raid_disks force mrEvents devs best) := by
  intro is
  induction is with
  | nil => intro st; simp [scanGo]
  | cons i is ih =>
    intro st
    simp only [scanGo, ih, scanSlot_sparecnt, List.countP_cons]
    omega

/-- C9: in the availability scan, a data slot i below raid_disks with a
chosen candidate gets that candidate marked up to date and its avail
bit set exactly when the candidate passes the sync test (waived at
multipath level -4) and its event counter plus the margin, 1 without
force and 0 with, reaches the most recent counter; avail bits are only
ever set for scanned data slots holding a candidate; and sparecnt
counts the slots whose candidate is a non-multipath neither-SYNC-nor-
FAULTY device, or an up-to-date candidate beyond the data slots. -/
theorem C9_scan_avail_iff (level : Int) (raid_disks : Nat) (force : Bool)
    (mrEvents : Nat) (devs : List Device) (best : Nat → Option Nat) (bestcnt : Nat) :
    (∀ i j, i < raid_disks → i < bestcnt → best i = some j →
      (((scanOut level raid_disks force mrEvents devs best bestcnt).uptodate j &&
        (scanOut level raid_disks force mrEvents devs best bestcnt).avail i) = true ↔
        upCondB level force mrEvents (devs.getD j default) = true)) ∧
    (∀ i, (scanOut level raid_disks force mrEvents devs best bestcnt).avail i = true →
      i < bestcnt ∧ i < raid_disks ∧ (best i).isSome) ∧
    (scanOut level raid_disks force mrEvents devs best bestcnt).sparecnt =
      (List.range bestcnt).countP
        (spareCondB level raid_disks force mrEvents devs best) := by
  have hav : ∀ s, (scanOut level raid_disks force mrEvents devs best bestcnt).avail s =
      (List.range bestcnt).any fun i => decide (s = i) &&
        availCondB level raid_disks force mrEvents devs best i := by
    intro s
    have := scanGo_avail level raid_disks force mrEvents devs best
      (List.range bestcnt)
      { uptodate := fun _ => false, avail := fun _ => false, okcnt := 0, sparecnt := 0 } s
    simpa [scanOut] using this
  have hup : ∀ j0, (scanOut level raid_disks force mrEvents devs best bestcnt).uptodate j0 =
      (List.range bestcnt).any (upMarkB level force mrEvents devs best j0) := by
    intro j0
    have := scanGo_uptodate level raid_disks force mrEvents devs best
      (List.range bestcnt)
      { uptodate := fun _ => false, avail := fun _ => false, okcnt := 0, sparecnt := 0 } j0
    simpa [scanOut] using this
  refine ⟨?_, ?_, ?_⟩
  · intro i j hir hib hbi
    constructor
    · intro h
      rw [Bool.and_eq_true] at h
      have havi := h.2
      rw [hav i] at havi
      obtain ⟨x, hx, hpx⟩ := List.any_eq_true.mp havi
      rw [Bool.and_eq_true] at hpx
      obtain ⟨hxeq, hcond⟩ := hpx
      have : i = x := of_decide_eq_true hxeq
      subst this
      simp only [availCondB, hbi, Bool.and_eq_true] at hcond
      exact hcond.1
    · intro h
      have h1 : (scanOut level raid_disks force mrEvents devs best bestcnt).uptodate j
          = true := by
        rw [hup j]
        refine List.any_eq_true.mpr ⟨i, List.mem_range.mpr hib, ?_⟩
        simp only [upMarkB, hbi]
        rw [h]
        simp
      have h2 : (scanOut level raid_disks force mrEvents devs best bestcnt).avail i
          = true := by
        rw [hav i]
        refine List.any_eq_true.mpr ⟨i, List.mem_range.mpr hib, ?_⟩
        simp only [availCondB, hbi]
        rw [h]
        simp [hir]
      rw [h1, h2]
      rfl
  · intro i h
    rw [hav i] at h
    obtain ⟨x, hx, hpx⟩ := List.any_eq_true.mp h
    rw [Bool.and_eq_true] at hpx
    obtain ⟨hxeq, hcond⟩ := hpx
    have hxi : i = x := of_decide_eq_true hxeq
    subst hxi
    refine ⟨List.mem_range.mp hx, ?_, ?_⟩
    · rcases hbi : best i with - | j
      · rw [availCondB, hbi] at hcond
        exact absurd hcond (by simp)
      · rw [availCondB, hbi] at hcond
        rw [Bool.and_eq_true] at hcond
        exact of_decide_eq_true hcond.2
    · rcases hbi : best i with - | j
      · rw [availCondB, hbi] at hcond
        exact absurd hcond (by simp)
      · simp [hbi]
  · have := scanGo_sparecnt level raid_disks force mrEvents devs best
      (List.range bestcnt)
      { uptodate := fun _ => false, avail := fun _ => false, okcnt := 0, sparecnt := 0 }
    simpa [scanOut] using this

/-- C9, witness: on the concrete input the scan marks the slot-0
candidate up to date and sets avail at 0. -/
theorem C9_scan_avail_iff_witness :
    ((scanOut 5 2 false 10 devsW9 bestW9 1).uptodate 0 &&
      (scanOut 5 2 false 10 devsW9 bestW9 1).avail 0) = true := by
  exact ((C9_scan_avail_iff 5 2 false 10 devsW9 bestW9 1).1 0 0 (by decide) (by decide)
    (by decide)).mpr (by decide)

lemma getD_set_self {α : Type} (dflt : α) :
    ∀ (l : List α) (i : Nat) (a : α), i < l.length →
      (l.set i a).getD i dflt = a := by
  intro l
  induction l with
  | nil =>
    intro i a h
    simp at h
  | cons x xs ih =>
    intro i a h
    cases i with
    | zero => rfl
    | succ n =>
      have hs : (x :: xs).set (n + 1) a = x :: xs.set n a := rfl
      rw [hs, List.getD_cons_succ]
      exact ih n a (Nat.lt_of_succ_lt_succ h)

lemma getD_set_other {α : Type} (dflt : α) :
    ∀ (l : List α) (i k : Nat) (a : α), k ≠ i →
      (l.set i a).getD k dflt = l.getD k dflt := by
  intro l
  induction l with
  | nil =>
    intro i k a h
    rfl
  | cons x xs ih =>
    intro i k a h
    cases i with
    | zero =>
      cases k with
      | zero => exact absurd rfl h
      | succ n =>
        have hs : (x :: xs).set 0 a = a :: xs := rfl
        rw [hs, List.getD_cons_succ, List.getD_cons_succ]
    | succ m =>
      cases k with
      | zero =>
        have hs : (x :: xs).set (m + 1) a = x :: xs.set m a := rfl
        rw [hs, List.getD_cons_zero, List.getD_cons_zero]
      | succ n =>
        have hs : (x :: xs).set (m + 1) a = x :: xs.set m a := rfl
        rw [hs, List.getD_cons_succ, List.getD_cons_succ]
        exact ih m n a (fun hh => h (by rw [hh]))

lemma getD_defaultOf {α : Type} (dflt : α) :
    ∀ (l : List α) (n : Nat), l.length ≤ n → l.getD n dflt = dflt := by
  intro l
  induction l with
  | nil =>
    intro n h
    cases n <;> rfl
  | cons x xs ih =>
    intro n h
    cases n with
    | zero => simp at h
    | succ m =>
      rw [List.getD_cons_succ]
      exact ih m (Nat.le_of_succ_le_succ h)

lemma countP_lt_of_mem {α : Type} (p q : α → Bool) :
    ∀ (l : List α), (∀ a ∈ l, q a = true → p a = true) →
      ∀ a0, a0 ∈ l → p a0 = true → q a0 = false →
        l.countP q < l.countP p := by
  intro l
  induction l with
  | nil =>
    intro hmono a0 ha0
    cases ha0
  | cons x xs ih =>
    intro hmono a0 ha0 hp hq
    rw [List.countP_cons, List.countP_cons]
    rcases List.mem_cons.mp ha0 with rfl | hmem
    · have hle : xs.countP q ≤ xs.countP p :=
        List.countP_mono_left (fun a ha => hmono a (List.mem_cons_of_mem _ ha))
      simp [hp, hq]
      omega
    · have hlt := ih (fun a ha => hmono a (List.mem_cons_of_mem _ ha)) a0 hmem hp hq
      by_cases hqx : q x = true
      · rw [hmono x (List.mem_cons_self x xs) hqx, hqx]
        simp
        omega
      · by_cases hpx : p x = true <;> simp [hqx, hpx] <;> omega

lemma chooseGo_spec (devs : List Device) (best : Nat → Option Nat) (m : Nat) :
    ∀ (is : List Nat) (chosen : Option Nat),
      (∀ i ∈ is, i < m) →
      (∀ c, chosen = some c → (∃ i, i < m ∧ best i = some c) ∧
        (devs.getD c default).uptodate = false ∧ 0 < (devs.getD c default).events) →
      ∀ c2, chooseGo devs best chosen is = some c2 →
        (∃ i, i < m ∧ best i = some c2) ∧
        (devs.getD c2 default).uptodate = false ∧
        0 < (devs.getD c2 default).events := by
  intro is
  induction is with
  | nil =>
    intro chosen hm hQ c2 h
    exact hQ c2 h
  | cons i is ih =>
    intro chosen hm hQ c2 h
    simp only [chooseGo] at h
    refine ih _ (fun x hx => hm x (List.mem_cons_of_mem _ hx)) ?_ c2 h
    intro c hc
    rcases hbi : best i with - | j
    · rw [hbi] at hc
      exact hQ c hc
    · have hc2 : (if (! (devs.getD j default).uptodate &&
          decide (0 < (devs.getD j default).events) &&
          chooseBetter devs chosen j) = true
          then some j else chosen) = some c := by
        rw [← hc, hbi]
      by_cases hcond : (! (devs.getD j default).uptodate &&
          decide (0 < (devs.getD j default).events) &&
          chooseBetter devs chosen j) = true
      · rw [if_pos hcond] at hc2
        obtain rfl : j = c := Option.some.inj hc2
        rw [Bool.and_eq_true] at hcond
        obtain ⟨h12, -⟩ := hcond
        rw [Bool.and_eq_true] at h12
        obtain ⟨h1, h2⟩ := h12
        refine ⟨⟨i, hm i (List.mem_cons_self i is), hbi⟩, ?_, of_decide_eq_true h2⟩
        cases hb : (devs.getD j default).uptodate
        · rfl
        · rw [hb] at h1
          exact absurd h1 (by decide)
      · rw [if_neg hcond] at hc2
        exact hQ c hc2

lemma chooseDrive_spec (devs : List Device) (best : Nat → Option Nat)
    (raid_disks bestcnt cd : Nat)
    (h : chooseDrive devs best raid_disks bestcnt = some cd) :
    (∃ i, i < min raid_disks bestcnt ∧ best i = some cd) ∧
    (devs.getD cd default).uptodate = false ∧
    0 < (devs.getD cd default).events := by
  refine chooseGo_spec devs best (min raid_disks bestcnt) (List.range _) none
    ?_ ?_ cd h
  · intro i hi
    exact List.mem_range.mp hi
  · intro c hc
    exact absurd hc (by simp)

lemma eligSlot_none (devs : List Device) (best : Nat → Option Nat) (i : Nat)
    (hbi : best i = none) : eligSlot devs best i = false := by
  unfold eligSlot
  rw [hbi]

lemma eligSlot_some (devs : List Device) (best : Nat → Option Nat) (i j : Nat)
    (hbi : best i = some j) :
    eligSlot devs best i =
      (! (devs.getD j default).uptodate &&
        decide (0 < (devs.getD j default).events)) := by
  unfold eligSlot
  rw [hbi]

lemma forceStep_some_elim (env : Nat → ForceIO) (mrEvents : Nat)
    (best : Nat → Option Nat) (raid_disks bestcnt : Nat) (st st2 : FLState)
    (h : forceStep env mrEvents best raid_disks bestcnt st = some st2) :
    ∃ cd, chooseDrive st.devs best raid_disks bestcnt = some cd ∧
      ((env cd = ForceIO.ok ∧
        st2 = { devs := st.devs.set cd (forceOkDev st cd mrEvents),
                avail := fun s => if s = cd then true else st.avail s,
                okcnt := st.okcnt + 1 }) ∨
       (env cd ≠ ForceIO.ok ∧
        st2 = { st with devs := st.devs.set cd (forceFailDev st cd) })) := by
  unfold forceStep at h
  rcases hcd : chooseDrive st.devs best raid_disks bestcnt with - | cd
  · rw [hcd] at h
    cases h
  · rw [hcd] at h
    refine ⟨cd, rfl, ?_⟩
    split at h
    · rename_i heq
      exact absurd heq (by simp)
    · rename_i x heq
      obtain rfl : cd = x := Option.some.inj heq
      split at h
      · rename_i heq2
        exact Or.inl ⟨heq2, (Option.some.inj h).symm⟩
      · rename_i y heq2
        refine Or.inr ⟨?_, (Option.some.inj h).symm⟩
        intro hok
        rw [hok] at heq2
        cases y <;> simp_all

lemma forceStep_measure (env : Nat → ForceIO) (mrEvents : Nat)
    (best : Nat → Option Nat) (raid_disks bestcnt : Nat) (st st2 : FLState)
    (h : forceStep env mrEvents best raid_disks bestcnt st = some st2) :
    forceMeasure st2.devs best raid_disks bestcnt <
      forceMeasure st.devs best raid_disks bestcnt := by
  obtain ⟨cd, hcd, hcase⟩ := forceStep_some_elim env mrEvents best raid_disks bestcnt
    st st2 h
  obtain ⟨⟨i0, hi0, hbi0⟩, hup, hev⟩ :=
    chooseDrive_spec st.devs best raid_disks bestcnt cd hcd
  have hlen : cd < st.devs.length := by
    by_contra hlen
    rw [getD_defaultOf default st.devs cd (Nat.le_of_not_lt hlen)] at hev
    exact absurd hev (by decide)
  have hdev2 : ∃ d2, st2.devs = st.devs.set cd d2 ∧
      (d2.uptodate = true ∨ d2.events = 0) := by
    rcases hcase with ⟨henv, rfl⟩ | ⟨henv, rfl⟩
    · exact ⟨forceOkDev st cd mrEvents, rfl, Or.inl rfl⟩
    · exact ⟨forceFailDev st cd, rfl, Or.inr rfl⟩
  obtain ⟨d2, hst2, hd2⟩ := hdev2
  have hmono : ∀ i ∈ List.range (min raid_disks bestcnt),
      eligSlot st2.devs best i = true → eligSlot st.devs best i = true := by
    intro i hi he
    rcases hbi : best i with - | j
    · rw [eligSlot_none st2.devs best i hbi] at he
      cases he
    · rw [eligSlot_some st2.devs best i j hbi] at he
      rw [eligSlot_some st.devs best i j hbi]
      by_cases hj : j = cd
      · subst hj
        rw [hst2, getD_set_self default st.devs j d2 hlen] at he
        rcases hd2 with h2 | h2 <;> rw [h2] at he <;> simp at he
      · rw [hst2, getD_set_other default st.devs cd j d2 hj] at he
        exact he
  have hstrict1 : eligSlot st.devs best i0 = true := by
    rw [eligSlot_some st.devs best i0 cd hbi0, hup, decide_eq_true hev]
    rfl
  have hstrict2 : eligSlot st2.devs best i0 = false := by
    rw [eligSlot_some st2.devs best i0 cd hbi0, hst2,
      getD_set_self default st.devs cd d2 hlen]
    rcases hd2 with h2 | h2 <;> simp [h2]
  unfold forceMeasure
  exact countP_lt_of_mem (eligSlot st.devs best) (eligSlot st2.devs best)
    (List.range (min raid_disks bestcnt)) hmono i0 (List.mem_range.mpr hi0)
    hstrict1 hstrict2

lemma forceLoop_finishes (env : Nat → ForceIO) (mrEvents : Nat) (level : Int)
    (raid_disks layout bestcnt : Nat) (best : Nat → Option Nat) (force : Bool) :
    ∀ (μ fuel : Nat) (st : FLState),
      forceMeasure st.devs best raid_disks bestcnt ≤ μ → μ < fuel →
      (forceLoop env mrEvents level raid_disks layout best bestcnt force fuel st).2.2
        = true ∧
      (forceLoop env mrEvents level raid_disks layout best bestcnt force fuel st).2.1
        ≤ μ := by
  intro μ
  induction μ with
  | zero =>
    intro fuel st hμ hfuel
    cases fuel with
    | zero => omega
    | succ f =>
      simp only [forceLoop]
      by_cases hcond : (force && ! enough level raid_disks layout st.avail st.okcnt)
          = true
      · rw [if_pos hcond]
        rcases hstep : forceStep env mrEvents best raid_disks bestcnt st with - | st2
        · exact ⟨rfl, Nat.le_refl 0⟩
        · have := forceStep_measure env mrEvents best raid_disks bestcnt st st2 hstep
          omega
      · rw [if_neg hcond]
        exact ⟨rfl, Nat.le_refl 0⟩
  | succ μ ih =>
    intro fuel st hμ hfuel
    cases fuel with
    | zero => omega
    | succ f =>
      simp only [forceLoop]
      by_cases hcond : (force && ! enough level raid_disks layout st.avail st.okcnt)
          = true
      · rw [if_pos hcond]
        rcases hstep : forceStep env mrEvents best raid_disks bestcnt st with - | st2
        · exact ⟨rfl, Nat.zero_le _⟩
        · have hdec := forceStep_measure env mrEvents best raid_disks bestcnt st st2 hstep
          have hih := ih f st2 (by omega) (by omega)
          refine ⟨hih.1, ?_⟩
          show (forceLoop env mrEvents level raid_disks layout best bestcnt force
            f st2).2.1 + 1 ≤ μ + 1
          omega
      · rw [if_neg hcond]
        exact ⟨rfl, Nat.zero_le _⟩

/-- C7, counterexample: with force on, one eligible but stale candidate
and a superblock rewrite that fails, the loop condition holds (the
quorum predicate is false), the iteration does not break (the body
yields a next state), yet okcnt stays at 0, against the claimed strict
increase on every non-breaking iteration. -/
theorem C7_counterexample :
    enough 0 1 0 (fun _ => false) 0 = false ∧
    ((forceStep (fun _ => ForceIO.storeFail) 7
        (fun s => if s = 0 then some 0 else none) 1 1
        { devs := [{ major := 8, minor := 1, oldmajor := 8, oldminor := 1,
                     events := 3, utime := 0, uptodate := false, state := 6,
                     raid_disk := 0 }],
          avail := fun _ => false, okcnt := 0 }).map
      (fun st => st.okcnt)) = some 0 := by
  exact ⟨rfl, rfl⟩

/-- C7, amended: a non-breaking force-loop iteration whose superblock
rewrite succeeds increases okcnt by exactly one; an iteration whose
reopen, reload or rewrite fails leaves okcnt unchanged and zeroes the
event counter of the chosen candidate, and the loop reselects; the loop
exits on its own after at most raid_disks non-breaking iterations, so
any fuel beyond raid_disks suffices. -/
theorem C7_force_monotonic_amended (env : Nat → ForceIO) (mrEvents : Nat)
    (level : Int) (raid_disks layout bestcnt : Nat) (best : Nat → Option Nat)
    (force : Bool) (st : FLState) :
    (∀ cd st2, chooseDrive st.devs best raid_disks bestcnt = some cd →
      forceStep env mrEvents best raid_disks bestcnt st = some st2 →
      (env cd = ForceIO.ok → st2.okcnt = st.okcnt + 1) ∧
      (env cd ≠ ForceIO.ok → st2.okcnt = st.okcnt ∧
        (st2.devs.getD cd default).events = 0)) ∧
    (∀ fuel, raid_disks < fuel →
      (forceLoop env mrEvents level raid_disks layout best bestcnt force fuel st).2.2
        = true ∧
      (forceLoop env mrEvents level raid_disks layout best bestcnt force fuel st).2.1
        ≤ raid_disks) := by
  constructor
  · intro cd st2 hcd hstep
    obtain ⟨cd2, hcd2, hcase⟩ := forceStep_some_elim env mrEvents best raid_disks
      bestcnt st st2 hstep
    have : cd2 = cd := Option.some.inj (hcd2.symm.trans hcd)
    subst this
    have hlen : cd2 < st.devs.length := by
      obtain ⟨-, -, hev⟩ := chooseDrive_spec st.devs best raid_disks bestcnt cd2 hcd2
      by_contra hlen
      rw [getD_defaultOf default st.devs cd2 (Nat.le_of_not_lt hlen)] at hev
      exact absurd hev (by decide)
    constructor
    · intro henv
      rcases hcase with ⟨-, rfl⟩ | ⟨hne, -⟩
      · rfl
      · exact absurd henv hne
    · intro hne
      rcases hcase with ⟨henv, -⟩ | ⟨-, rfl⟩
      · exact absurd henv hne
      · refine ⟨rfl, ?_⟩
        show ((st.devs.set cd2 (forceFailDev st cd2)).getD cd2 default).events = 0
        rw [getD_set_self default st.devs cd2 _ hlen]
        rfl
  · intro fuel hfuel
    have hμ : forceMeasure st.devs best raid_disks bestcnt ≤ raid_disks := by
      have h1 : forceMeasure st.devs best raid_disks bestcnt ≤
          (List.range (min raid_disks bestcnt)).length := by
        unfold forceMeasure
        exact List.countP_le_length _
      rw [List.length_range] at h1
      omega
    exact forceLoop_finishes env mrEvents level raid_disks layout bestcnt best force
      raid_disks fuel st hμ hfuel

/-- C7, witness: on a concrete two-slot array the amended statement
instantiates; the loop with fuel 3 exits on its own after at most 2
iterations. -/
theorem C7_force_monotonic_amended_witness :
    (forceLoop (fun _ => ForceIO.ok) 7 0 2 0
      (fun s => if s = 0 then some 0 else none) 2 true 3
      { devs := [{ major := 8, minor := 1, oldmajor := 8, oldminor := 1,
                   events := 3, utime := 0, uptodate := false, state := 6,
                   raid_disk := 0 }],
        avail := fun _ => false, okcnt := 0 }).2.2 = true ∧
    (forceLoop (fun _ => ForceIO.ok) 7 0 2 0
      (fun s => if s = 0 then some 0 else none) 2 true 3
      { devs := [{ major := 8, minor := 1, oldmajor := 8, oldminor := 1,
                   events := 3, utime := 0, uptodate := false, state := 6,
                   raid_disk := 0 }],
        avail := fun _ => false, okcnt := 0 }).2.1 ≤ 2 := by
  exact (C7_force_monotonic_amended (fun _ => ForceIO.ok) 7 0 2 0 2
    (fun s => if s = 0 then some 0 else none) true
    { devs := [{ major := 8, minor := 1, oldmajor := 8, oldminor := 1,
                 events := 3, utime := 0, uptodate := false, state := 6,
                 raid_disk := 0 }],
      avail := fun _ => false, okcnt := 0 }).2 3 (by decide)

/-- C1: the force loop indexes the availability vector with the device
index of the chosen drive (Assemble.c line 475), not with its RAID
slot.  On the slot-swap run the loop successfully rewrites the stale
candidate of slot 0 (device index 1), increments okcnt, yet leaves
avail at its RAID slot 0 clear while setting index 1; and on the
out-of-range run, with raid_disks = 1, the successful rewrite of device
index 1 writes the availability bit at index 1, outside the
raid_disks-byte vector. -/
theorem C1_force_avail_device_index_bug :
    ((forceStep (fun _ => ForceIO.ok) 10
        (fun s => if s = 0 then some 1 else if s = 1 then some 0 else none) 2 2
        { devs := devsC1, avail := fun s => decide (s = 1), okcnt := 1 }).map
      (fun st => (st.avail 0, st.avail 1, st.okcnt))) = some (false, true, 2) ∧
    (devsC1.getD 1 default).raid_disk = 0 ∧
    ((forceStep (fun _ => ForceIO.ok) 9
        (fun s => if s = 0 then some 1 else none) 1 1
        { devs := devsC1b, avail := fun _ => false, okcnt := 0 }).map
      (fun st => st.avail 1)) = some true := by
  exact ⟨rfl, rfl, rfl⟩

lemma or_two_idem (x : Nat) : (x ||| 2) ||| 2 = x ||| 2 := by
  rw [Nat.or_assoc, Nat.or_self]

lemma renumberPatch_change (d : Device) (i : Nat) (acc : Super × Nat) :
    (renumberPatch d i acc).2 = acc.2 ∨ (renumberPatch d i acc).2 = acc.2 ||| 2 := by
  simp only [renumberPatch]
  split
  · right
    rfl
  · left
    rfl

lemma statePatch_change (force : Bool) (d : Device) (i : Nat) (desired_state : Nat)
    (acc : Super × Nat) :
    (statePatch force d i desired_state acc).2 = acc.2 ∨
    (statePatch force d i desired_state acc).2 = acc.2 ||| 2 := by
  simp only [statePatch]
  split
  · split
    · right
      rfl
    · left
      rfl
  · left
    rfl

lemma reconcileSlot_change (force : Bool) (devs : List Device)
    (best : Nat → Option Nat) (acc : Super × Nat) (i : Nat) :
    (reconcileSlot force devs best acc i).2 = acc.2 ∨
    (reconcileSlot force devs best acc i).2 = acc.2 ||| 2 := by
  simp only [reconcileSlot]
  rcases hbi : best i with - | j
  · simp only [hbi]
    left
    trivial
  · simp only [hbi]
    by_cases hup : (! (devs.getD j default).uptodate) = true
    · rw [if_pos hup]
      left
      rfl
    · rw [if_neg hup]
      rcases statePatch_change force (devs.getD j default) i
          (if i < acc.1.raid_disks then 2 ^ MD_DISK_ACTIVE ||| 2 ^ MD_DISK_SYNC else 0)
          (renumberPatch (devs.getD j default) i acc) with h2 | h2 <;>
        rcases renumberPatch_change (devs.getD j default) i acc with h1 | h1 <;>
          rw [h2, h1]
      · left
        rfl
      · right
        rfl
      · right
        rfl
      · right
        exact or_two_idem acc.2

lemma reconcile_change (force : Bool) (okcnt : Nat) (devs : List Device)
    (best : Nat → Option Nat) (bestcnt : Nat) (sup0 : Super) :
    (reconcile force okcnt devs best bestcnt sup0).2 = 0 ∨
    (reconcile force okcnt devs best bestcnt sup0).2 = 2 := by
  have hfold : ∀ (is : List Nat) (acc : Super × Nat), (acc.2 = 0 ∨ acc.2 = 2) →
      ((is.foldl (reconcileSlot force devs best) acc).2 = 0 ∨
       (is.foldl (reconcileSlot force devs best) acc).2 = 2) := by
    intro is
    induction is with
    | nil =>
      intro acc h
      exact h
    | cons i is ih =>
      intro acc h
      rw [List.foldl_cons]
      apply ih
      rcases reconcileSlot_change force devs best acc i with h2 | h2 <;>
        rcases h with h3 | h3 <;> rw [h2, h3]
      · left
        rfl
      · right
        rfl
      · right
        rfl
      · right
        rfl
  simp only [reconcile]
  split
  · rcases hfold (List.range bestcnt) (sup0, 0) (Or.inl rfl) with h | h <;> rw [h]
    · right
      rfl
    · right
      rfl
  · exact hfold (List.range bestcnt) (sup0, 0) (Or.inl rfl)

/-- C4, counterexample: on the legacy path (old_linux true) without
force, a renumber-only reconciliation records change = 2, yet the code
does not write the superblock back (its legacy clause tests bit 1,
which stays clear), while the condition as the claim words it, legacy
path together with a recorded renumber change, demands a write. -/
theorem C4_counterexample :
    (reconcile false 1 devsC4 bestC4 1 supC4).2 = 2 ∧
    storeCond false true (reconcile false 1 devsC4 bestC4 1 supC4).2 = false ∧
    specStoreCond false true true false = true := by
  exact ⟨by decide, by decide, by decide⟩

/-- C4, amended: the reconciler records change bit 2 both for a
renumber patch and for a forced state overwrite, and bit 1, the only
bit the legacy-path clause of the write condition tests, is never set
(only the disabled current-numbering branch could set it), so the
reconciled superblock is written back, with recomputed checksum, iff
force is set and change bit 2 is set; a failure to open or store during
this write returns exit status 1, and without the condition nothing is
written. -/
theorem C4_reconcile_write_amended (force old_linux : Bool) (okcnt : Nat)
    (devs : List Device) (best : Nat → Option Nat) (bestcnt : Nat) (sup0 : Super)
    (csum : Super → Nat) (openOK storeOK : Bool) :
    ((reconcile force okcnt devs best bestcnt sup0).2 = 0 ∨
     (reconcile force okcnt devs best bestcnt sup0).2 = 2) ∧
    (storeCond force old_linux (reconcile force okcnt devs best bestcnt sup0).2 =
      (force && decide ((reconcile force okcnt devs best bestcnt sup0).2 &&& 2 ≠ 0))) ∧
    (storeCond force old_linux (reconcile force okcnt devs best bestcnt sup0).2 = true →
      (openOK = false ∨ storeOK = false) →
      (reconcileWrite csum openOK storeOK force old_linux
        (reconcile force okcnt devs best bestcnt sup0).1
        (reconcile force okcnt devs best bestcnt sup0).2).1 = some 1) ∧
    (storeCond force old_linux (reconcile force okcnt devs best bestcnt sup0).2 = true →
      openOK = true → storeOK = true →
      (reconcileWrite csum openOK storeOK force old_linux
        (reconcile force okcnt devs best bestcnt sup0).1
        (reconcile force okcnt devs best bestcnt sup0).2).2 =
        some ({ (reconcile force okcnt devs best bestcnt sup0).1 with
          sb_csum := csum (reconcile force okcnt devs best bestcnt sup0).1 })) ∧
    (storeCond force old_linux (reconcile force okcnt devs best bestcnt sup0).2 = false →
      reconcileWrite csum openOK storeOK force old_linux
        (reconcile force okcnt devs best bestcnt sup0).1
        (reconcile force okcnt devs best bestcnt sup0).2 = (none, none)) := by
  have hch := reconcile_change force okcnt devs best bestcnt sup0
  refine ⟨hch, ?_, ?_, ?_, ?_⟩
  · rcases hch with h | h <;> rw [h] <;> cases force <;> cases old_linux <;> decide
  · intro hsc hfail
    unfold reconcileWrite
    rw [if_pos hsc]
    rcases hfail with h | h <;> rw [h]
    · rfl
    · cases openOK <;> rfl
  · intro hsc ho hs
    unfold reconcileWrite
    rw [if_pos hsc, ho, hs]
    rfl
  · intro hsc
    unfold reconcileWrite
    rw [if_neg (by rw [hsc]; exact Bool.false_ne_true)]

/-- C4, witness: on the concrete renumber-only input with force set,
the write condition holds and a failing open aborts with exit 1. -/
theorem C4_reconcile_write_amended_witness :
    storeCond true false (reconcile true 1 devsC4 bestC4 1 supC4).2 = true ∧
    (reconcileWrite (fun _ => 0) false true true false
      (reconcile true 1 devsC4 bestC4 1 supC4).1
      (reconcile true 1 devsC4 bestC4 1 supC4).2).1 = some 1 := by
  refine ⟨by decide, ?_⟩
  exact (C4_reconcile_write_amended true false 1 devsC4 bestC4 1 supC4
    (fun _ => 0) false true).2.2.1 (by decide) (Or.inl rfl)

lemma addSlot_trace (addOK : Nat → Bool) (devs : List Device)
    (best : Nat → Option Nat) (chosen : Option Nat) (raid_disks bestcnt : Nat)
    (acc : AddAcc) (i : Nat) :
    ∃ t0, (addSlot addOK devs best chosen raid_disks bestcnt acc i).trace =
        acc.trace ++ t0 ∧
      ∀ x ∈ t0, ∃ ma mi, x = KCall.addNewDisk ma mi := by
  simp only [addSlot]
  rcases hj : (if i < bestcnt then (if best i = chosen then none else best i)
      else chosen) with - | j <;> simp only [hj]
  · exact ⟨[], by simp, by simp⟩
  · refine ⟨[KCall.addNewDisk (devs.getD j default).major
      (devs.getD j default).minor], ?_, ?_⟩
    · by_cases hA : addOK i = true
      · rw [if_pos hA]
      · rw [if_neg hA]
        by_cases hB : i < raid_disks ∨ i = bestcnt
        · rw [if_pos hB]
        · rw [if_neg hB]
    · intro x hx
      simp at hx
      subst hx
      exact ⟨_, _, rfl⟩

lemma addFold_trace (addOK : Nat → Bool) (devs : List Device)
    (best : Nat → Option Nat) (chosen : Option Nat) (raid_disks bestcnt : Nat) :
    ∀ (is : List Nat) (acc : AddAcc),
      ∃ adds, (is.foldl (addSlot addOK devs best chosen raid_disks bestcnt)
          acc).trace = acc.trace ++ adds ∧
        ∀ x ∈ adds, ∃ ma mi, x = KCall.addNewDisk ma mi := by
  intro is
  induction is with
  | nil =>
    intro acc
    exact ⟨[], by simp, by simp⟩
  | cons i is ih =>
    intro acc
    rw [List.foldl_cons]
    obtain ⟨t0, ht0, hall0⟩ := addSlot_trace addOK devs best chosen raid_disks
      bestcnt acc i
    obtain ⟨adds, hadds, hall⟩ := ih (addSlot addOK devs best chosen raid_disks
      bestcnt acc i)
    refine ⟨t0 ++ adds, ?_, ?_⟩
    · rw [hadds, ht0, List.append_assoc]
    · intro x hx
      rcases List.mem_append.mp hx with h | h
      · exact hall0 x h
      · exact hall x h

lemma addSlot_last_none (addOK : Nat → Bool) (devs : List Device)
    (best : Nat → Option Nat) (raid_disks bestcnt : Nat) (acc : AddAcc) :
    addSlot addOK devs best none raid_disks bestcnt acc bestcnt = acc := by
  simp only [addSlot]
  rw [if_neg (Nat.lt_irrefl bestcnt)]

lemma addSlot_last_some (addOK : Nat → Bool) (devs : List Device)
    (best : Nat → Option Nat) (raid_disks bestcnt : Nat) (acc : AddAcc) (c : Nat) :
    (addSlot addOK devs best (some c) raid_disks bestcnt acc bestcnt).trace =
      acc.trace ++ [KCall.addNewDisk (devs.getD c default).major
        (devs.getD c default).minor] := by
  simp only [addSlot]
  rw [if_neg (Nat.lt_irrefl bestcnt)]
  split
  · rename_i heq
    cases heq
  · rename_i j heq
    obtain rfl : c = j := Option.some.inj heq
    split
    · rfl
    · split
      · rfl
      · rfl

lemma modernPath_shape (env : ModernEnv) (devs : List Device)
    (best : Nat → Option Nat) (chosen : Option Nat) (level : Int)
    (raid_disks layout bestcnt : Nat) (avail : Nat → Bool)
    (okcnt sparecnt req_cnt : Nat) (runstop : Int) (spo : Bool)
    (hset : env.setOK = true) :
    ∃ adds : List KCall,
      (∀ x ∈ adds, ∃ ma mi, x = KCall.addNewDisk ma mi) ∧
      (∀ c, chosen = some c → adds.getLast? =
        some (KCall.addNewDisk (devs.getD c default).major
          (devs.getD c default).minor)) ∧
      ((modernPath env devs best chosen level raid_disks layout bestcnt avail
          okcnt sparecnt req_cnt runstop spo).1 = KCall.setArrayInfo :: adds ∨
       (modernPath env devs best chosen level raid_disks layout bestcnt avail
          okcnt sparecnt req_cnt runstop spo).1 =
         KCall.setArrayInfo :: adds ++ [KCall.runArray]) ∧
      ((KCall.runArray ∈ (modernPath env devs best chosen level raid_disks layout
          bestcnt avail okcnt sparecnt req_cnt runstop spo).1) ↔
        runCond level raid_disks layout avail
          ((List.range (bestcnt + 1)).foldl
            (addSlot env.addOK devs best chosen raid_disks bestcnt)
            { trace := [KCall.setArrayInfo], okcnt := okcnt,
              sparecnt := sparecnt }).okcnt req_cnt runstop spo = true) ∧
      (runCond level raid_disks layout avail
          ((List.range (bestcnt + 1)).foldl
            (addSlot env.addOK devs best chosen raid_disks bestcnt)
            { trace := [KCall.setArrayInfo], okcnt := okcnt,
              sparecnt := sparecnt }).okcnt req_cnt runstop spo = false →
        (modernPath env devs best chosen level raid_disks layout bestcnt avail
          okcnt sparecnt req_cnt runstop spo).2 =
          (if runstop = -1 then 0 else 1)) := by
  have hnotset : ((! env.setOK) = true) = False := by
    rw [hset]
    simp
  have hmp : modernPath env devs best chosen level raid_disks layout bestcnt avail
      okcnt sparecnt req_cnt runstop spo =
      (let acc := (List.range (bestcnt + 1)).foldl
        (addSlot env.addOK devs best chosen raid_disks bestcnt)
        { trace := [KCall.setArrayInfo], okcnt := okcnt, sparecnt := sparecnt }
       if runCond level raid_disks layout avail acc.okcnt req_cnt runstop spo then
         if env.runOK then (acc.trace ++ [KCall.runArray], 0)
         else (acc.trace ++ [KCall.runArray], 1)
       else if runstop = -1 then (acc.trace, 0)
       else (acc.trace, 1)) := by
    unfold modernPath
    rw [hset]
    rfl
  obtain ⟨adds1, htr1, hall1⟩ := addFold_trace env.addOK devs best chosen raid_disks
    bestcnt (List.range bestcnt)
    { trace := [KCall.setArrayInfo], okcnt := okcnt, sparecnt := sparecnt }
  have hsplit : (List.range (bestcnt + 1)).foldl
      (addSlot env.addOK devs best chosen raid_disks bestcnt)
      { trace := [KCall.setArrayInfo], okcnt := okcnt, sparecnt := sparecnt } =
      addSlot env.addOK devs best chosen raid_disks bestcnt
        ((List.range bestcnt).foldl
          (addSlot env.addOK devs best chosen raid_disks bestcnt)
          { trace := [KCall.setArrayInfo], okcnt := okcnt, sparecnt := sparecnt })
        bestcnt := by
    rw [List.range_succ, List.foldl_append, List.foldl_cons, List.foldl_nil]
  obtain ⟨t0, ht0, hall0⟩ := addSlot_trace env.addOK devs best chosen raid_disks
    bestcnt ((List.range bestcnt).foldl
      (addSlot env.addOK devs best chosen raid_disks bestcnt)
      { trace := [KCall.setArrayInfo], okcnt := okcnt, sparecnt := sparecnt })
    bestcnt
  refine ⟨adds1 ++ t0, ?_, ?_, ?_, ?_, ?_⟩
  · intro x hx
    rcases List.mem_append.mp hx with h | h
    · exact hall1 x h
    · exact hall0 x h
  · intro c hc
    subst hc
    have hlast := addSlot_last_some env.addOK devs best raid_disks bestcnt
      ((List.range bestcnt).foldl
        (addSlot env.addOK devs best (some c) raid_disks bestcnt)
        { trace := [KCall.setArrayInfo], okcnt := okcnt, sparecnt := sparecnt }) c
    have ht0eq : t0 = [KCall.addNewDisk (devs.getD c default).major
        (devs.getD c default).minor] := by
      have h1 := ht0
      rw [hlast] at h1
      exact (List.append_cancel_left h1).symm
    rw [ht0eq]
    exact List.getLast?_concat _
  all_goals
    have htr : ((List.range (bestcnt + 1)).foldl
        (addSlot env.addOK devs best chosen raid_disks bestcnt)
        { trace := [KCall.setArrayInfo], okcnt := okcnt,
          sparecnt := sparecnt }).trace = KCall.setArrayInfo :: (adds1 ++ t0) := by
      rw [hsplit, ht0, htr1]
      simp
  all_goals
    have h1trace : (modernPath env devs best chosen level raid_disks layout bestcnt
        avail okcnt sparecnt req_cnt runstop spo).1 =
        (if runCond level raid_disks layout avail
            ((List.range (bestcnt + 1)).foldl
              (addSlot env.addOK devs best chosen raid_disks bestcnt)
              { trace := [KCall.setArrayInfo], okcnt := okcnt,
                sparecnt := sparecnt }).okcnt req_cnt runstop spo = true then
          ((List.range (bestcnt + 1)).foldl
            (addSlot env.addOK devs best chosen raid_disks bestcnt)
            { trace := [KCall.setArrayInfo], okcnt := okcnt,
              sparecnt := sparecnt }).trace ++ [KCall.runArray]
        else
          ((List.range (bestcnt + 1)).foldl
            (addSlot env.addOK devs best chosen raid_disks bestcnt)
            { trace := [KCall.setArrayInfo], okcnt := okcnt,
              sparecnt := sparecnt }).trace) := by
      rw [hmp]
      by_cases hrc : runCond level raid_disks layout avail
          ((List.range (bestcnt + 1)).foldl
            (addSlot env.addOK devs best chosen raid_disks bestcnt)
            { trace := [KCall.setArrayInfo], okcnt := okcnt,
              sparecnt := sparecnt }).okcnt req_cnt runstop spo = true
      · rw [if_pos hrc, if_pos hrc]
        by_cases hro : env.runOK = true
        · rw [if_pos hro]
        · rw [if_neg hro]
      · rw [if_neg hrc, if_neg hrc]
        by_cases hrn : runstop = -1
        · rw [if_pos hrn]
        · rw [if_neg hrn]
  · -- trace shape
    by_cases hrc : runCond level raid_disks layout avail
        ((List.range (bestcnt + 1)).foldl
          (addSlot env.addOK devs best chosen raid_disks bestcnt)
          { trace := [KCall.setArrayInfo], okcnt := okcnt,
            sparecnt := sparecnt }).okcnt req_cnt runstop spo = true
    · right
      rw [h1trace, if_pos hrc, htr]
    · left
      rw [h1trace, if_neg hrc, htr]
  · -- membership iff
    have hnomem : KCall.runArray ∉ KCall.setArrayInfo :: (adds1 ++ t0) := by
      intro hmem
      rcases List.mem_cons.mp hmem with h | h
      · cases h
      · rcases List.mem_append.mp h with h2 | h2
        · obtain ⟨ma, mi, hx⟩ := hall1 _ h2
          cases hx
        · obtain ⟨ma, mi, hx⟩ := hall0 _ h2
          cases hx
    constructor
    · intro hmem
      by_contra hrc
      rw [Bool.not_eq_true] at hrc
      rw [h1trace, if_neg (by rw [hrc]; exact Bool.false_ne_true), htr] at hmem
      exact hnomem hmem
    · intro hrc
      rw [h1trace, if_pos hrc]
      exact List.mem_append_right _ (by simp)
  · -- exit status when the run policy declines
    intro hrc
    rw [hmp, if_neg (by rw [hrc]; exact Bool.false_ne_true)]
    by_cases hrn : runstop = -1
    · rw [if_pos hrn, if_pos hrn]
    · rw [if_neg hrn, if_neg hrn]

/-- C5: on the modern path with SET_ARRAY_INFO succeeding and a chosen
drive present, the kernel call trace is SET_ARRAY_INFO exactly once and
first, then only ADD_NEW_DISK calls whose last one carries the
device numbers of the chosen drive, and RUN_ARRAY, if issued, is the last
call; hence SET_ARRAY_INFO strictly precedes every ADD_NEW_DISK, and
every ADD_NEW_DISK precedes RUN_ARRAY. -/
theorem C5_modern_call_ordering (env : ModernEnv) (devs : List Device)
    (best : Nat → Option Nat) (chosen : Option Nat) (c : Nat) (level : Int)
    (raid_disks layout bestcnt : Nat) (avail : Nat → Bool)
    (okcnt sparecnt req_cnt : Nat) (runstop : Int) (spo : Bool)
    (hset : env.setOK = true) (hc : chosen = some c) :
    ∃ adds : List KCall,
      ((modernPath env devs best chosen level raid_disks layout bestcnt avail
          okcnt sparecnt req_cnt runstop spo).1 = KCall.setArrayInfo :: adds ∨
       (modernPath env devs best chosen level raid_disks layout bestcnt avail
          okcnt sparecnt req_cnt runstop spo).1 =
         KCall.setArrayInfo :: adds ++ [KCall.runArray]) ∧
      (∀ x ∈ adds, ∃ ma mi, x = KCall.addNewDisk ma mi) ∧
      adds.getLast? = some (KCall.addNewDisk (devs.getD c default).major
        (devs.getD c default).minor) ∧
      (modernPath env devs best chosen level raid_disks layout bestcnt avail
        okcnt sparecnt req_cnt runstop spo).1.count KCall.setArrayInfo = 1 ∧
      ((modernPath env devs best chosen level raid_disks layout bestcnt avail
          okcnt sparecnt req_cnt runstop spo).1.getLast? = some KCall.runArray ∨
       KCall.runArray ∉ (modernPath env devs best chosen level raid_disks layout
          bestcnt avail okcnt sparecnt req_cnt runstop spo).1) := by
  obtain ⟨adds, hall, hlastf, hor, hmemiff, hexit⟩ := modernPath_shape env devs best
    chosen level raid_disks layout bestcnt avail okcnt sparecnt req_cnt runstop
    spo hset
  have hz : adds.count KCall.setArrayInfo = 0 := by
    rw [List.count_eq_zero]
    intro hmem
    obtain ⟨ma, mi, hx⟩ := hall _ hmem
    cases hx
  refine ⟨adds, hor, hall, hlastf c hc, ?_, ?_⟩
  · rcases hor with h | h <;> rw [h] <;>
      simp [List.count_cons, List.count_append, hz]
  · rcases hor with h | h
    · right
      rw [h]
      intro hmem
      rcases List.mem_cons.mp hmem with h2 | h2
      · cases h2
      · obtain ⟨ma, mi, hx⟩ := hall _ h2
        cases hx
    · left
      rw [h]
      show ((KCall.setArrayInfo :: adds) ++ [KCall.runArray]).getLast? =
        some KCall.runArray
      exact List.getLast?_concat _

/-- C5, witness: on a concrete one-device array with the chosen drive
at index 0 and runstop 1, the trace issues SET_ARRAY_INFO exactly
once. -/
theorem C5_modern_call_ordering_witness :
    (modernPath { setOK := true, addOK := fun _ => true, runOK := true }
      [{ major := 8, minor := 1, oldmajor := 8, oldminor := 1, events := 10,
         utime := 0, uptodate := true, state := 6, raid_disk := 0 }]
      (fun s => if s = 0 then some 0 else none) (some 0) 0 1 0 1
      (fun _ => true) 1 0 1 1 false).1.count KCall.setArrayInfo = 1 := by
  obtain ⟨adds, -, -, -, hcnt, -⟩ := C5_modern_call_ordering
    { setOK := true, addOK := fun _ => true, runOK := true }
    [{ major := 8, minor := 1, oldmajor := 8, oldminor := 1, events := 10,
       utime := 0, uptodate := true, state := 6, raid_disk := 0 }]
    (fun s => if s = 0 then some 0 else none) (some 0) 0 0 1 0 1
    (fun _ => true) 1 0 1 1 false rfl rfl
  exact hcnt

/-- C6: on the modern path with SET_ARRAY_INFO succeeding, RUN_ARRAY is
issued iff runstop is 1, or runstop is 0 and the enough predicate holds
on the post-add okcnt and that okcnt reaches req_cnt or the
start-partial flag holds, where req_cnt counts the reference
slots of the reference superblock with ACTIVE and SYNC set and FAULTY clear, and the
start-partial flag is force or the absence of an explicit device list;
with runstop equal to -1 the array is never started and the exit status
is 0. -/
theorem C6_run_policy (env : ModernEnv) (devs : List Device)
    (best : Nat → Option Nat) (chosen : Option Nat) (level : Int)
    (raid_disks layout bestcnt : Nat) (avail : Nat → Bool)
    (okcnt sparecnt : Nat) (runstop : Int) (force devlistGiven : Bool)
    (first_super : Super) (hset : env.setOK = true) :
    (KCall.runArray ∈ (modernPath env devs best chosen level raid_disks layout
        bestcnt avail okcnt sparecnt (reqCntOf first_super) runstop
        (startPartialOkOf force devlistGiven)).1 ↔
      (runstop = 1 ∨ (runstop = 0 ∧
        enough level raid_disks layout avail
          ((List.range (bestcnt + 1)).foldl
            (addSlot env.addOK devs best chosen raid_disks bestcnt)
            { trace := [KCall.setArrayInfo], okcnt := okcnt,
              sparecnt := sparecnt }).okcnt = true ∧
        (reqCntOf first_super ≤
          ((List.range (bestcnt + 1)).foldl
            (addSlot env.addOK devs best chosen raid_disks bestcnt)
            { trace := [KCall.setArrayInfo], okcnt := okcnt,
              sparecnt := sparecnt }).okcnt ∨
         startPartialOkOf force devlistGiven = true)))) ∧
    (runstop = -1 →
      KCall.runArray ∉ (modernPath env devs best chosen level raid_disks layout
        bestcnt avail okcnt sparecnt (reqCntOf first_super) runstop
        (startPartialOkOf force devlistGiven)).1 ∧
      (modernPath env devs best chosen level raid_disks layout bestcnt avail
        okcnt sparecnt (reqCntOf first_super) runstop
        (startPartialOkOf force devlistGiven)).2 = 0) := by
  obtain ⟨adds, hall, hlastf, hor, hmemiff, hexit⟩ := modernPath_shape env devs best
    chosen level raid_disks layout bestcnt avail okcnt sparecnt
    (reqCntOf first_super) runstop (startPartialOkOf force devlistGiven) hset
  have hdecode : ∀ okA : Nat, (runCond level raid_disks layout avail okA
      (reqCntOf first_super) runstop (startPartialOkOf force devlistGiven) = true ↔
      (runstop = 1 ∨ (runstop = 0 ∧
        enough level raid_disks layout avail okA = true ∧
        (reqCntOf first_super ≤ okA ∨
          startPartialOkOf force devlistGiven = true)))) := by
    intro okA
    simp [runCond, Bool.or_eq_true, Bool.and_eq_true, decide_eq_true_eq]
  constructor
  · rw [hmemiff]
    exact hdecode _
  · intro hrn
    subst hrn
    have hrc : runCond level raid_disks layout avail
        ((List.range (bestcnt + 1)).foldl
          (addSlot env.addOK devs best chosen raid_disks bestcnt)
          { trace := [KCall.setArrayInfo], okcnt := okcnt,
            sparecnt := sparecnt }).okcnt (reqCntOf first_super) (-1)
        (startPartialOkOf force devlistGiven) = false := by
      simp [runCond]
    constructor
    · intro hmem
      rw [hmemiff, hrc] at hmem
      exact Bool.false_ne_true hmem
    · rw [hexit hrc]
      rfl

/-- C6, witness: with runstop 1 the concrete run issues RUN_ARRAY. -/
theorem C6_run_policy_witness :
    KCall.runArray ∈ (modernPath
      { setOK := true, addOK := fun _ => true, runOK := true }
      [{ major := 8, minor := 2, oldmajor := 8, oldminor := 2, events := 10,
         utime := 0, uptodate := true, state := 6, raid_disk := 0 }]
      (fun s => if s = 0 then some 0 else none) (some 0) 0 1 0 1
      (fun _ => true) 1 0 (reqCntOf default) 1
      (startPartialOkOf false false)).1 := by
  exact (C6_run_policy { setOK := true, addOK := fun _ => true, runOK := true }
    [{ major := 8, minor := 2, oldmajor := 8, oldminor := 2, events := 10,
       utime := 0, uptodate := true, state := 6, raid_disk := 0 }]
    (fun s => if s = 0 then some 0 else none) (some 0) 0 1 0 1
    (fun _ => true) 1 0 1 false false default rfl).1.mpr (Or.inl rfl)

/-- C3, counterexample: two explicitly named devices, no identity
constraint set; the first device has no loadable superblock and is not
the only device supplied, yet the probe loop aborts fatally with exit 1
instead of skipping it and continuing with the second device. -/
theorem C3_counterexample :
    probeLoop
      { uuid_set := false, uuid := 0, super_minor := none, level := none,
        raid_disks := none, hasPattern := false } 0
      [{ patternMatch := true, openOK := true, statOK := true, isBlock := true,
         loadOK := false, sup := default, this_uuid := 0, compareOK := true,
         cur_major := 8, cur_minor := 1 },
       { patternMatch := true, openOK := true, statOK := true, isBlock := true,
         loadOK := true, sup := default, this_uuid := 0, compareOK := true,
         cur_major := 8, cur_minor := 2 }] = Except.error 1 := by
  rfl

/-- C3, amended: a named device whose superblock fails to load, and
which is not excluded by a device pattern, is skipped exactly when some
identity constraint (uuid, super-minor, level or raid-disks) is set,
since without a superblock it then fails that check; when no identity
constraint is set the device is fatal, regardless of how many other
devices were supplied. -/
theorem C3_no_super_fatal_iff (ident : Ident) (inp : ProbeInput) (devcnt : Nat)
    (hpat : ident.hasPattern = false ∨ inp.patternMatch = true)
    (hload : inp.loadOK = false) :
    (probeDevice ident inp devcnt = ProbeOutcome.skipped ↔
      (ident.uuid_set = true ∨ ident.super_minor ≠ none ∨ ident.level ≠ none ∨
        ident.raid_disks ≠ none)) ∧
    (probeDevice ident inp devcnt = ProbeOutcome.fatal ↔
      (ident.uuid_set = false ∧ ident.super_minor = none ∧ ident.level = none ∧
        ident.raid_disks = none)) := by
  rcases hpat with hp | hp <;>
    cases hu : ident.uuid_set <;>
    rcases hm : ident.super_minor with - | m <;>
    rcases hl : ident.level with - | lv <;>
    rcases hr : ident.raid_disks with - | rd <;>
    simp [probeDevice, hp, hu, hm, hl, hr, hload]

/-- C3, witness: with a uuid constraint set, the superblock-less device
is skipped rather than fatal. -/
theorem C3_no_super_fatal_iff_witness :
    probeDevice
      { uuid_set := true, uuid := 7, super_minor := none, level := none,
        raid_disks := none, hasPattern := false }
      { patternMatch := true, openOK := true, statOK := true, isBlock := true,
        loadOK := false, sup := default, this_uuid := 0, compareOK := true,
        cur_major := 8, cur_minor := 1 } 0 = ProbeOutcome.skipped := by
  exact (C3_no_super_fatal_iff
    { uuid_set := true, uuid := 7, super_minor := none, level := none,
      raid_disks := none, hasPattern := false }
    { patternMatch := true, openOK := true, statOK := true, isBlock := true,
      loadOK := false, sup := default, this_uuid := 0, compareOK := true,
      cur_major := 8, cur_minor := 1 } 0 (Or.inl rfl) rfl).1.mpr (Or.inl rfl)

lemma probeDevice_cap (ident : Ident) (inp : ProbeInput) (devcnt : Nat) :
    (probeDevice ident inp devcnt = ProbeOutcome.committed ↔
      (probeDevice ident inp 0 = ProbeOutcome.committed ∧
        devcnt < MD_SB_DISKS)) ∧
    (probeDevice ident inp 0 = ProbeOutcome.committed → MD_SB_DISKS ≤ devcnt →
      probeDevice ident inp devcnt = ProbeOutcome.skipped) := by
  unfold probeDevice
  by_cases h1 : (ident.hasPattern && ! inp.patternMatch) = true
  · simp only [if_pos h1]
    simp
  · simp only [if_neg h1]
    by_cases h2 : (ident.uuid_set &&
        (! (inp.openOK && inp.statOK && inp.isBlock && inp.loadOK) ||
          decide (inp.this_uuid ≠ ident.uuid))) = true
    · simp only [if_pos h2]
      simp
    · simp only [if_neg h2]
      by_cases h3 : (match ident.super_minor with
          | some m => ! (inp.openOK && inp.statOK && inp.isBlock && inp.loadOK) ||
              decide (m ≠ inp.sup.md_minor)
          | none => false) = true
      · simp only [if_pos h3]
        simp
      · simp only [if_neg h3]
        by_cases h4 : (match ident.level with
            | some lv => ! (inp.openOK && inp.statOK && inp.isBlock && inp.loadOK) ||
                decide (lv ≠ inp.sup.level)
            | none => false) = true
        · simp only [if_pos h4]
          simp
        · simp only [if_neg h4]
          by_cases h5 : (match ident.raid_disks with
              | some rd => ! (inp.openOK && inp.statOK && inp.isBlock && inp.loadOK) ||
                  decide (rd ≠ inp.sup.raid_disks)
              | none => false) = true
          · simp only [if_pos h5]
            simp
          · simp only [if_neg h5]
            by_cases h6 : (! (inp.openOK && inp.statOK && inp.isBlock &&
                inp.loadOK)) = true
            · simp only [if_pos h6]
              simp
            · simp only [if_neg h6]
              by_cases h7 : (! inp.compareOK) = true
              · simp only [if_pos h7]
                simp
              · simp only [if_neg h7]
                have h0 : ¬ (MD_SB_DISKS ≤ 0) := by
                  simp [MD_SB_DISKS]
                simp only [if_neg h0]
                by_cases h8 : MD_SB_DISKS ≤ devcnt
                · simp only [if_pos h8]
                  simp [h8]
                · simp only [if_neg h8]
                  simp [h8]
                  all_goals omega

lemma probeLoop_length (ident : Ident) :
    ∀ (inputs : List ProbeInput) (n : Nat) (ds : List Device),
      probeLoop ident n inputs = Except.ok ds → ds.length ≤ MD_SB_DISKS - n := by
  intro inputs
  induction inputs with
  | nil =>
    intro n ds h
    simp only [probeLoop] at h
    obtain rfl : ([] : List Device) = ds := Except.ok.inj h
    simp
  | cons inp rest ih =>
    intro n ds h
    simp only [probeLoop] at h
    rcases ho : probeDevice ident inp n with - | - | -
    · simp only [ho] at h
      exact ih n ds h
    · simp only [ho] at h
      cases h
    · simp only [ho] at h
      rcases hrec : probeLoop ident (n + 1) rest with e | ds2
      · simp only [hrec] at h
        cases h
      · simp only [hrec] at h
        obtain rfl : mkDevice inp :: ds2 = ds := Except.ok.inj h
        have hn : n < MD_SB_DISKS := ((probeDevice_cap ident inp n).1.mp ho).2
        have h2 := ih (n + 1) ds2 hrec
        simp only [List.length_cons]
        omega

/-- C10: the probe loop commits at most MD_SB_DISKS devices; once the
committed count has reached MD_SB_DISKS, a device that passes every
other check can no longer be committed and is instead skipped with a
warning, before the update block is reached, and the rejection is not
fatal. -/
theorem C10_commit_cap (ident : Ident) :
    (∀ (inputs : List ProbeInput) (ds : List Device),
      probeLoop ident 0 inputs = Except.ok ds → ds.length ≤ MD_SB_DISKS) ∧
    (∀ (inp : ProbeInput) (devcnt : Nat), MD_SB_DISKS ≤ devcnt →
      probeDevice ident inp devcnt ≠ ProbeOutcome.committed ∧
      (probeDevice ident inp 0 = ProbeOutcome.committed →
        probeDevice ident inp devcnt = ProbeOutcome.skipped)) := by
  constructor
  · intro inputs ds h
    have := probeLoop_length ident inputs 0 ds h
    omega
  · intro inp devcnt hge
    constructor
    · intro hc
      have := ((probeDevice_cap ident inp devcnt).1.mp hc).2
      omega
    · intro hc
      exact (probeDevice_cap ident inp devcnt).2 hc hge

/-- C10, witness: at a committed count of MD_SB_DISKS the otherwise
committable device is skipped. -/
theorem C10_commit_cap_witness :
    probeDevice
      { uuid_set := false, uuid := 0, super_minor := none, level := none,
        raid_disks := none, hasPattern := false }
      { patternMatch := true, openOK := true, statOK := true, isBlock := true,
        loadOK := true, sup := default, this_uuid := 0, compareOK := true,
        cur_major := 8, cur_minor := 1 } 28 = ProbeOutcome.skipped := by
  exact ((C10_commit_cap
    { uuid_set := false, uuid := 0, super_minor := none, level := none,
      raid_disks := none, hasPattern := false }).2
    { patternMatch := true, openOK := true, statOK := true, isBlock := true,
      loadOK := true, sup := default, this_uuid := 0, compareOK := true,
      cur_major := 8, cur_minor := 1 } 28 (by decide)).2 (by decide)

end Mdadm

